import Mathlib

/-!
# Medieval Dynasty save backup: a verification development of `main.go`

The program sleeps for a configured number of minutes, asks the Windows process
table whether the game is running and, if it is, zips every regular file of the
save directory into a timestamped archive.

The Go functions are embedded as pure Lean functions.  Everything the program
asks of its host (process table, directory listings, file contents, clock) is an
explicit argument, and everything it does to its host is recorded in the value
it returns (archive contents, a log of calls).

Conventions:

* a Go result `(T, error)` is an `Except GoError T`; a Go result `error` is an
  `Option GoError`, `none` standing for `nil`;
* library calls are modelled by their documented behaviour: `os.Create`,
  `os.Open`, `Stat` and `Read` fail with an `*os.PathError` that carries the
  path; `zip.FileInfoHeader` does not fail;
* `os.Create` truncates the destination; whether and where a write to it fails
  is given by the host;
* a complete archive is the list of its members, each a header and its
  uncompressed bytes; a destination that a failed write left incomplete is
  told apart from it;
* the endless loop of `main` is observed for a bounded number of cycles
  (`fuel`); what it prints, creates and calls is a list of events;
* `init` and `getScriptDir` (main.go 144-174) only change the working
  directory before `main` starts and are not part of the development.
-/

namespace MDBackup

/-! ## Go values shared by all components -/

/-- Go `error` values the program can meet: a bare `syscall.Errno`, an
`*os.PathError` (operation, path, errno) and an `errors.New` text. -/
inductive GoError where
  | errno (code : Nat)
  | pathError (op : String) (path : String) (code : Nat)
  | text (msg : String)
deriving DecidableEq, Repr

/-- Bytes of a file. -/
abbrev Bytes := List Nat

/-! ## Naming policy: `genZipFname` (main.go 46-52) and the replacer `r` (main.go 20) -/

/-- Go `strings.Replace(s, old, new, -1)` for one-character `old` and `new`:
every occurrence is replaced. -/
def stringsReplaceAll (s : String) (old new : Char) : String :=
  ⟨s.data.map (fun c => if c = old then new else c)⟩

/-- The call `r.Replace` for `r = strings.NewReplacer(" ", "_", ":", "_")` (main.go 20):
a replacer whose patterns are all single bytes rewrites each byte on its own. -/
def rReplace (s : String) : String :=
  ⟨s.data.map (fun c => if c = ' ' then '_' else if c = ':' then '_' else c)⟩

/-- The local wall-clock reading `time.Now()` hands to `Format`: the fields the
layout of `genZipFname` looks at.  `weekday` counts from Sunday = 0, `month`
from January = 0. -/
structure Time where
  year : Int
  month : Fin 12
  day : Nat
  hour : Nat
  minute : Nat
  weekday : Fin 7
deriving DecidableEq, Repr

/-- Names of `time.Weekday.String()`. -/
def longDayNames : List String :=
  ["Sunday", "Monday", "Tuesday", "Wednesday", "Thursday", "Friday", "Saturday"]

/-- Names of `time.Month.String()`. -/
def longMonthNames : List String :=
  ["January", "February", "March", "April", "May", "June", "July", "August",
   "September", "October", "November", "December"]

/-- Go `appendInt(b, x, width)` of package time: decimal, a minus sign for a
negative number, zero-padded on the left up to `width` digits. -/
def appendInt (x : Int) (width : Nat) : String :=
  let digits := (Nat.repr x.natAbs).data
  let pad := List.replicate (width - digits.length) '0'
  ⟨(if x < 0 then ['-'] else []) ++ pad ++ digits⟩

/-- Go `t.Format("Mon Jan 2 3:04PM 2006")`: three-letter weekday, three-letter
month, day of month, hour on the 12-hour clock, a colon, two-digit minute,
AM or PM, four-digit year; the blanks and the colon of the layout are copied. -/
def Time.format (t : Time) : String :=
  let hr := if t.hour % 12 = 0 then 12 else t.hour % 12
  ((longDayNames.getD t.weekday.val "").take 3) ++ " " ++
  ((longMonthNames.getD t.month.val "").take 3) ++ " " ++
  appendInt t.day 0 ++ " " ++
  appendInt hr 0 ++ ":" ++ appendInt t.minute 2 ++
  (if t.hour ≥ 12 then "PM" else "AM") ++ " " ++
  appendInt t.year 4

/-- Lines 48-51 of `genZipFname`, as a function of the formatted timestamp. -/
def genZipFnameOf (timestamp : String) : String :=
  let finalTimestamp := stringsReplaceAll timestamp ' ' '_'
  let filename := "md_save_backup_(" ++ finalTimestamp ++ ").zip"
  let filename := rReplace filename
  filename

/-- Embedding of `genZipFname` (main.go 46-52); `now` is the value of `time.Now()`. -/
def genZipFname (now : Time) : String :=
  let timestamp := now.format
  genZipFnameOf timestamp

/-- The name the specification describes: the fixed opening, the timestamp with
each blank and each colon turned into an underscore, the fixed ending. -/
def specArchiveName (timestamp : String) : String :=
  "md_save_backup_(" ++
    String.mk (timestamp.data.map (fun c => if c = ' ' ∨ c = ':' then '_' else c)) ++
    ").zip"

/-- Monday 2 January 2006, 3:04 PM. -/
def referenceTime : Time :=
  { year := 2006, month := 0, day := 2, hour := 15, minute := 4, weekday := 1 }

/-! ## Liveness checker: `gameRunning` (main.go 22-44) -/

/-- Go `syscall.ERROR_NO_MORE_FILES`. -/
def ERROR_NO_MORE_FILES : GoError := GoError.errno 18

/-- The constant `procName` of `gameRunning`. -/
def procName : String := "Medieval_Dynasty-Win64-Shipping.exe"

/-- Go `windows.ProcessEntry32`, the fields the program touches; `exeFile` is the
array of UTF-16 code units. -/
structure ProcessEntry32 where
  size : Nat
  exeFile : List Nat
deriving DecidableEq, Repr

/-- Go `utf16.Decode`: a code unit outside the surrogate range is a rune, a high
surrogate followed by a low one is one rune, any other surrogate becomes
U+FFFD. -/
def utf16Decode : List Nat → List Char
  | [] => []
  | [r] => if r < 0xd800 ∨ 0xe000 ≤ r then [Char.ofNat r] else [Char.ofNat 0xfffd]
  | r :: r2 :: rest =>
    if r < 0xd800 ∨ 0xe000 ≤ r then Char.ofNat r :: utf16Decode (r2 :: rest)
    else if r < 0xdc00 ∧ 0xdc00 ≤ r2 ∧ r2 < 0xe000 then
      Char.ofNat ((r - 0xd800) * 0x400 + (r2 - 0xdc00) + 0x10000) :: utf16Decode rest
    else Char.ofNat 0xfffd :: utf16Decode (r2 :: rest)

/-- Go `windows.UTF16ToString`: the code units before the first NUL, decoded. -/
def UTF16ToString (s : List Nat) : String :=
  ⟨utf16Decode (s.takeWhile (fun v => v != 0))⟩

/-- What the host answers to `gameRunning`: the result of
`CreateToolhelp32Snapshot`, and for an opened snapshot the results of the
successive `Process32Next` calls.  A call made after the last listed result
reports `ERROR_NO_MORE_FILES`. -/
structure Host where
  snapshot : Except GoError (List (Except GoError ProcessEntry32))

/-- The `for` loop of `gameRunning` (main.go 29-42) over the results that
`Process32Next` still has to give. -/
def gameRunningLoop : List (Except GoError ProcessEntry32) → Except GoError Bool
  | [] => .ok false
  | .error err :: _ =>
    if err = ERROR_NO_MORE_FILES then .ok false else .error err
  | .ok proc :: rest =>
    let runningProcName := UTF16ToString proc.exeFile
    if runningProcName = procName then .ok true else gameRunningLoop rest

/-- Embedding of `gameRunning` (main.go 22-44). -/
def gameRunning (host : Host) : Except GoError Bool :=
  match host.snapshot with
  | .error err => .error err
  | .ok h => gameRunningLoop h

/-! ## Path functions of the Go library

`filepath.Base`, `filepath.Join`, `filepath.IsAbs` and `filepath.Abs` belong to
the Go library of the host platform; the program only passes strings through
them, so they are taken as given. -/

/-- The functions of package `path/filepath` the program calls. -/
structure Filepath where
  Base : String → String
  Join : String → String → String
  IsAbs : String → Bool
  Abs : String → Except GoError String

/-! ## Snapshot collector: `populatePaths` (main.go 95-108) -/

/-- Go `os.FileInfo`, as far as the program and `zip.FileInfoHeader` read it. -/
structure FileInfo where
  name : String
  size : Nat
  mode : Nat
  modTime : Nat
  isDir : Bool
deriving DecidableEq, Repr

/-- Embedding of `populatePaths` (main.go 95-108).  `readDir` is `ioutil.ReadDir` on the
host; the `for` loop appends to `filePaths` one entry at a time. -/
def populatePaths (fp : Filepath) (readDir : String → Except GoError (List FileInfo))
    (savePath : String) : Except GoError (List String) :=
  match readDir savePath with
  | .error err => .error err
  | .ok files =>
    .ok (files.foldl
      (fun filePaths f =>
        if !f.isDir then filePaths ++ [fp.Join savePath f.name] else filePaths)
      [])

/-! ## Archiver: `makeZip` (main.go 54-69) and `addFileToZip` (main.go 71-93) -/

/-- What the host holds at a path that `os.Open` can open: the answer of
`Stat` (an errno when it fails), the bytes `Read` delivers, and the errno of the
read failure that follows those bytes (`none` when end of file follows). -/
structure FileData where
  stat : Except Nat FileInfo
  bytes : Bytes
  readErr : Option Nat
deriving Repr

/-- The file system as `makeZip` meets it.

* `createErr p`: the errno with which `os.Create` fails at `p` (`none`: it
  succeeds);
* `lookup p`: what `os.Open` finds at `p` (an errno when it fails);
* `sameFile p q`: whether the paths `p` and `q` name one and the same file;
* `created p`: what `Stat` reports, the size apart, for a file `os.Create` has
  just made, seen through the path `p`;
* `writeErr p k`: the errno with which a write to the file created at `p` fails
  at the `k`-th point where the archive writer hands bytes on (each
  `CreateHeader`, each `io.Copy` and the final `Close`, counted from 0);
  `none` when no write fails there, be it that the file takes the bytes or that
  they stay in the writer's buffer. -/
structure FileSys where
  createErr : String → Option Nat
  lookup : String → Except Nat FileData
  sameFile : String → String → Bool
  created : String → FileInfo
  writeErr : String → Nat → Option Nat

/-- The file system once `os.Create` has succeeded at `name`: the file is cut
to length zero, so every path that names it now finds an empty file.  (The
archive's bytes reach the file only when the writer's buffer is flushed.) -/
def FileSys.truncate (sys : FileSys) (name : String) : FileSys :=
  { sys with
    lookup := fun p =>
      if sys.sameFile name p then
        .ok { stat := .ok { sys.created p with size := 0 }, bytes := [], readErr := none }
      else sys.lookup p }

/-- An open `*os.File`. -/
structure File where
  name : String
  data : FileData

/-- Go `os.Create(name)`: the handle (here the name of the file) and the file
system it leaves.  A failure is an `*os.PathError` carrying `name` and changes
nothing; a success truncates the file. -/
def osCreate (sys : FileSys) (name : String) : Except GoError String × FileSys :=
  match sys.createErr name with
  | some code => (.error (.pathError "open" name code), sys)
  | none => (.ok name, sys.truncate name)

/-- Go `os.Open(name)`; a failure is an `*os.PathError` carrying `name`. -/
def osOpen (sys : FileSys) (name : String) : Except GoError File :=
  match sys.lookup name with
  | .error code => .error (.pathError "open" name code)
  | .ok d => .ok { name := name, data := d }

/-- Go `f.Stat()`; a failure is an `*os.PathError` carrying the file's name. -/
def File.Stat (f : File) : Except GoError FileInfo :=
  match f.data.stat with
  | .error code => .error (.pathError "stat" f.name code)
  | .ok info => .ok info

/-- Go `zip.Store`. -/
def Store : Nat := 0

/-- Go `zip.Deflate`. -/
def Deflate : Nat := 8

/-- Go `zip.FileHeader`, the fields set on the way through `addFileToZip`. -/
structure FileHeader where
  Name : String
  Method : Nat
  UncompressedSize64 : Nat
  Modified : Nat
  Mode : Nat
deriving DecidableEq, Repr

/-- One member of an archive: its header and its (uncompressed) contents. -/
structure ZipEntry where
  header : FileHeader
  data : Bytes
deriving DecidableEq, Repr

/-- Go `zip.Writer`: the members already finished, the member being written
(`last`), whether `Close` has run, the name of the file written to, the number
of points at which bytes were handed on so far, and the write error met (the
buffered writer keeps returning it once it has occurred). -/
structure ZipWriter where
  dir : List ZipEntry
  last : Option ZipEntry
  closed : Bool
  out : String
  writes : Nat
  fault : Option GoError
deriving DecidableEq, Repr

/-- Go `zip.NewWriter(newZipFile)`. -/
def zipNewWriter (newZipFile : String) : ZipWriter :=
  { dir := [], last := none, closed := false, out := newZipFile, writes := 0, fault := none }

/-- Finish the member being written, as `CreateHeader` and `Close` both do
first. -/
def ZipWriter.finishLast (w : ZipWriter) : ZipWriter :=
  match w.last with
  | none => w
  | some e => { w with dir := w.dir ++ [e], last := none }

/-- One point at which the writer hands bytes on towards its file.  A write
error met earlier is returned again; otherwise the host says whether a write
fails here, with an `*os.PathError` carrying the name of the file. -/
def ZipWriter.handOn (sys : FileSys) (w : ZipWriter) : Option GoError × ZipWriter :=
  match w.fault with
  | some err => (some err, { w with writes := w.writes + 1 })
  | none =>
    match sys.writeErr w.out w.writes with
    | some code =>
      (some (.pathError "write" w.out code),
        { w with writes := w.writes + 1, fault := some (.pathError "write" w.out code) })
    | none => (none, { w with writes := w.writes + 1 })

/-- Go `zip.FileInfoHeader(info)`: never fails. -/
def zipFileInfoHeader (info : FileInfo) : Except GoError FileHeader :=
  .ok { Name := info.name, Method := Store, UncompressedSize64 := info.size,
        Modified := info.modTime, Mode := info.mode }

/-- Go `zipWriter.CreateHeader(header)`: refused on a closed writer; otherwise
the previous member is finished and the new header written, which may fail;
after that a new, empty member is the one being written.  The `io.Writer` the
Go call returns is that member. -/
def ZipWriter.CreateHeader (sys : FileSys) (w : ZipWriter) (header : FileHeader) :
    Option GoError × ZipWriter :=
  if w.closed then (some (.text "zip: write to closed file"), w)
  else
    match w.finishLast.handOn sys with
    | (some err, w) => (some err, w)
    | (none, w) => (none, { w with last := some { header := header, data := [] } })

/-- Append bytes to the member being written. -/
def ZipWriter.write (w : ZipWriter) (bs : Bytes) : ZipWriter :=
  match w.last with
  | none => w
  | some e => { w with last := some { e with data := e.data ++ bs } }

/-- Go `io.Copy(writer, fileToZip)`: it returns the write error if a write to
the destination fails during the copy; otherwise every byte the file delivers
has gone into the member being written, and it returns the read error that
ended the delivery (an `*os.PathError` carrying the file's name), or nil at end
of file. -/
def ioCopy (sys : FileSys) (w : ZipWriter) (f : File) : Option GoError × ZipWriter :=
  match w.handOn sys with
  | (some err, w) => (some err, w)
  | (none, w) =>
    let w := w.write f.data.bytes
    match f.data.readErr with
    | some code => (some (.pathError "read" f.name code), w)
    | none => (none, w)

/-- Go `zipWriter.Close()`: finish the last member, write the directory and
flush the buffer, which may fail. -/
def ZipWriter.Close (sys : FileSys) (w : ZipWriter) : Option GoError × ZipWriter :=
  match w.finishLast.handOn sys with
  | (err, w) => (err, { w with closed := true })

/-- Embedding of `addFileToZip` (main.go 71-93): the error it returns and the writer it
leaves behind. -/
def addFileToZip (fp : Filepath) (sys : FileSys) (zipWriter : ZipWriter)
    (filename : String) : Option GoError × ZipWriter :=
  match osOpen sys filename with
  | .error err => (some err, zipWriter)
  | .ok fileToZip =>
    match fileToZip.Stat with
    | .error err => (some err, zipWriter)
    | .ok info =>
      match zipFileInfoHeader info with
      | .error err => (some err, zipWriter)
      | .ok header =>
        let header := { header with Name := fp.Base filename }
        let header := { header with Method := Deflate }
        match zipWriter.CreateHeader sys header with
        | (some err, zipWriter) => (some err, zipWriter)
        | (none, writer) => ioCopy sys writer fileToZip

/-- What `makeZip` leaves at the destination: a complete archive with these
members, or a file that is not one (a piece of the archive's bytes, possibly
none at all, because a write failed). -/
inductive DestFile where
  | archive (entries : List ZipEntry)
  | broken
deriving DecidableEq, Repr

/-- What a call of `makeZip` returns and leaves behind: the error (`none` for
`nil`), the file at the destination (`none`: no file was created there), and
the input paths handed to `addFileToZip`, in call order. -/
structure MakeZipResult where
  err : Option GoError
  dest : Option DestFile
  processed : List String
deriving DecidableEq, Repr

/-- The `for` loop of `makeZip` (main.go 62-67): error, writer, and the paths
handed to `addFileToZip`. -/
def makeZipLoop (fp : Filepath) (sys : FileSys) :
    ZipWriter → List String → Option GoError × ZipWriter × List String
  | zipWriter, [] => (none, zipWriter, [])
  | zipWriter, filePath :: rest =>
    match addFileToZip fp sys zipWriter filePath with
    | (some err, zipWriter) => (some err, zipWriter, [filePath])
    | (none, zipWriter) =>
      let (err, zipWriter, done) := makeZipLoop fp sys zipWriter rest
      (err, zipWriter, filePath :: done)

/-- Embedding of `makeZip` (main.go 54-69).  The inputs are opened in the file
system `os.Create` has left.  The deferred `zipWriter.Close()` runs on every
return after `os.Create` succeeded and its error is dropped: the destination
holds a complete archive when no write failed, and a file that is no archive
otherwise. -/
def makeZip (fp : Filepath) (sys : FileSys) (filePaths : List String)
    (outPath : String) : MakeZipResult :=
  match osCreate sys outPath with
  | (.error err, _) => { err := some err, dest := none, processed := [] }
  | (.ok newZipFile, sys) =>
    let zipWriter := zipNewWriter newZipFile
    let (err, zipWriter, done) := makeZipLoop fp sys zipWriter filePaths
    let (_, zipWriter) := zipWriter.Close sys
    { err := err,
      dest := some (if zipWriter.fault.isNone then .archive zipWriter.dir else .broken),
      processed := done }

/-- The file can be opened and every read of it succeeds up to end of file. -/
def FileSys.opensAndReads (sys : FileSys) (p : String) : Bool :=
  match sys.lookup p with
  | .error _ => false
  | .ok d => d.readErr.isNone

/-- The bytes of the file at `p` when it can be opened, stat-ed and read to its
end; `none` otherwise. -/
def FileSys.readAll (sys : FileSys) (p : String) : Option Bytes :=
  match sys.lookup p with
  | .error _ => none
  | .ok d =>
    match d.stat, d.readErr with
    | .ok _, none => some d.bytes
    | _, _ => none

/-- The name and contents of each member, in archive order. -/
def members (es : List ZipEntry) : List (String × Bytes) :=
  es.map (fun e => (e.header.Name, e.data))

/-- The names and contents held by the file at the destination when it is a
complete archive. -/
def DestFile.listing : DestFile → Option (List (String × Bytes))
  | .archive es => some (members es)
  | .broken => none

/-- A writer that can go on: not closed, no write error met, and no write to
its file fails. -/
def ZipWriter.sound (sys : FileSys) (w : ZipWriter) : Prop :=
  w.closed = false ∧ w.fault = none ∧ ∀ k, sys.writeErr w.out k = none

/-! ## Configuration: `readConfig` (main.go 110-121), `parseConfig` (main.go 123-134) -/

/-- Modelled from the spec: the `Config` struct is declared outside main.go; the
specification gives `savePath` and `outPath` as strings and `interval` as an
integer number of minutes, and main.go reads them as `SavePath`, `OutPath` and
`Interval`. -/
structure Config where
  SavePath : String
  OutPath : String
  Interval : Int
deriving DecidableEq, Repr

/-- What one cycle of the loop finds on the host: the process table, the
directory listings, the clock and the file system. -/
structure CycleEnv where
  host : Host
  readDir : String → Except GoError (List FileInfo)
  now : Time
  sys : FileSys

/-- The host of one run of the program. -/
structure World where
  fp : Filepath
  readFile : String → Except GoError Bytes
  jsonUnmarshal : Bytes → Except GoError Config
  mkdirAll : String → Option GoError
  getwd : Except GoError String
  cycles : Nat → CycleEnv

/-- Embedding of `readConfig` (main.go 110-121). -/
def readConfig (w : World) : Except GoError Config :=
  match w.readFile "config.json" with
  | .error err => .error err
  | .ok data =>
    match w.jsonUnmarshal data with
    | .error err => .error err
    | .ok obj => .ok obj

/-- Embedding of `parseConfig` (main.go 123-134). -/
def parseConfig (w : World) : Except GoError Config :=
  match readConfig w with
  | .error err => .error err
  | .ok cfg =>
    if cfg.SavePath = "" then .error (.text "Save path is empty.")
    else if !(decide (cfg.Interval ≥ 5) && decide (cfg.Interval ≤ 60)) then
      .error (.text "Interval must be between 5 and 60.")
    else .ok cfg

/-- Embedding of `makeDir` (main.go 136-142). -/
def makeDir (w : World) (path : String) : Option GoError :=
  match w.mkdirAll path with
  | some err => some err
  | none => none

/-! ## Scheduler loop: `main` (main.go 190-238) -/

/-- What a run does, as seen from outside, in order. -/
inductive Event where
  | makeDir (path : String)
  | printf (interval : Int) (outPath : String)
  | sleep (d : Int)
  | gameRunning
  | println (line : String)
  | populatePaths (savePath : String)
  | makeZip (filePaths : List String) (zipPath : String) (dest : Option DestFile)
  | panic (err : GoError)
deriving DecidableEq, Repr

/-- The events of a piece of a run, and the error it panicked with (`none`: it
did not panic). -/
structure Run where
  events : List Event
  panicked : Option GoError
deriving DecidableEq, Repr

/-- A 64-bit signed integer: the value of an `int64` expression after
wrap-around. -/
def wrapInt64 (x : Int) : Int := (x + 2 ^ 63) % 2 ^ 64 - 2 ^ 63

/-- Go `time.Minute`, in nanoseconds. -/
def Minute : Int := 60 * 1000000000

/-- The text printed when the game is not running (main.go 223). -/
def skippedNotice : String := "Game isn't running, skipped backup."

/-- Embedding of `printInfo` (main.go 176-188): the line it prints and the error it
returns. -/
def printInfo (fp : Filepath) (interval : Int) (outPath : String) :
    List Event × Option GoError :=
  if !fp.IsAbs outPath then
    match fp.Abs outPath with
    | .error err => ([], some err)
    | .ok outPath => ([.printf interval outPath], none)
  else ([.printf interval outPath], none)

/-- One pass through the body of the `for` loop of `main` (main.go 217-236). -/
def cycle (fp : Filepath) (waitTime : Int) (savePath outPath : String)
    (env : CycleEnv) : Run :=
  let ev := [Event.sleep waitTime, Event.gameRunning]
  match gameRunning env.host with
  | .error err => ⟨ev ++ [.panic err], some err⟩
  | .ok running =>
    if !running then ⟨ev ++ [.println skippedNotice], none⟩
    else
      let ev := ev ++ [.populatePaths savePath]
      match populatePaths fp env.readDir savePath with
      | .error err => ⟨ev ++ [.panic err], some err⟩
      | .ok filePaths =>
        let zipFname := genZipFname env.now
        let zipPath := fp.Join outPath zipFname
        let res := makeZip fp env.sys filePaths zipPath
        let ev := ev ++ [.makeZip filePaths zipPath res.dest]
        match res.err with
        | some err => ⟨ev ++ [.panic err], some err⟩
        | none => ⟨ev ++ [.println zipFname], none⟩

/-- The `for` loop of `main` (main.go 216-237), observed for at most `fuel`
cycles starting with cycle number `k`. -/
def mainLoop (fp : Filepath) (waitTime : Int) (savePath outPath : String)
    (cycles : Nat → CycleEnv) : Nat → Nat → Run
  | 0, _ => ⟨[], none⟩
  | fuel + 1, k =>
    let c := cycle fp waitTime savePath outPath (cycles k)
    match c.panicked with
    | some err => ⟨c.events, some err⟩
    | none =>
      let r := mainLoop fp waitTime savePath outPath cycles fuel (k + 1)
      ⟨c.events ++ r.events, r.panicked⟩

/-- Lines 211-237 of `main`: the wait time, `printInfo`, the loop. -/
def mainFrom (w : World) (fuel : Nat) (savePath outPath : String) (interval : Int) :
    Run :=
  let waitTime := wrapInt64 (wrapInt64 interval * Minute)
  match printInfo w.fp interval outPath with
  | (ev, some err) => ⟨ev ++ [.panic err], some err⟩
  | (ev, none) =>
    let r := mainLoop w.fp waitTime savePath outPath w.cycles fuel 0
    ⟨ev ++ r.events, r.panicked⟩

/-- Embedding of `main` (main.go 190-238), with its loop observed for at most `fuel`
cycles. -/
def main (w : World) (fuel : Nat) : Run :=
  match parseConfig w with
  | .error err => ⟨[.panic err], some err⟩
  | .ok cfg =>
    let outPath := cfg.OutPath
    let savePath := cfg.SavePath
    let interval := cfg.Interval
    if outPath ≠ "" then
      match makeDir w outPath with
      | some err => ⟨[.makeDir outPath, .panic err], some err⟩
      | none =>
        let r := mainFrom w fuel savePath outPath interval
        ⟨.makeDir outPath :: r.events, r.panicked⟩
    else
      match w.getwd with
      | .error err => ⟨[.panic err], some err⟩
      | .ok outPath => mainFrom w fuel savePath outPath interval

/-- An event that calls `gameRunning`, `populatePaths` or `makeZip`. -/
def Event.isWork : Event → Bool
  | .gameRunning => true
  | .populatePaths _ => true
  | .makeZip _ _ _ => true
  | _ => false

/-- An event that creates something on disk: a `makeDir` or a `makeZip` call. -/
def Event.isCreation : Event → Bool
  | .makeDir _ => true
  | .makeZip _ _ _ => true
  | _ => false

/-- An event that lists the save directory or creates an archive. -/
def Event.touchesFiles : Event → Bool
  | .populatePaths _ => true
  | .makeZip _ _ _ => true
  | _ => false

/-- A line printed by the loop. -/
def Event.isPrintln : Event → Bool
  | .println _ => true
  | _ => false

/-- The error with which the file at `p` fails to be opened, stat-ed or read to
its end; `none` when it does not fail. -/
def FileSys.failure (sys : FileSys) (p : String) : Option GoError :=
  match sys.lookup p with
  | .error code => some (.pathError "open" p code)
  | .ok d =>
    match d.stat with
    | .error code => some (.pathError "stat" p code)
    | .ok _ => d.readErr.map (fun code => .pathError "read" p code)

/-- What a file that failed leaves in the archive: nothing when `os.Open` or
`Stat` failed, a member with the bytes read so far when the failure came while
copying. -/
def FileSys.leftover (fp : Filepath) (sys : FileSys) (p : String) :
    List (String × Option Bytes) :=
  match sys.lookup p with
  | .error _ => []
  | .ok d =>
    match d.stat with
    | .error _ => []
    | .ok _ => [(fp.Base p, some d.bytes)]

/-! ## Concrete hosts, used to evaluate the definitions -/

/-- A stand-in for package `path/filepath`: the base name is what follows the
last slash, joining puts a slash between the parts, every path is absolute. -/
def sampleFilepath : Filepath where
  Base := fun p => ⟨(p.data.reverse.takeWhile (fun c => c != '/')).reverse⟩
  Join := fun a b => a ++ "/" ++ b
  IsAbs := fun _ => true
  Abs := fun p => .ok p

/-- A file of `n` bytes named `name`. -/
def sampleInfo (name : String) (n : Nat) : FileInfo :=
  { name := name, size := n, mode := 420, modTime := 0, isDir := false }

/-- Pseudo-random bytes: `n` outputs of the linear congruential generator
`x := (1103515245 * x + 12345) mod 2^31`, each reduced to its bits 16 to 23.
Such data does not compress. -/
def noise : Nat → Nat → List Nat
  | 0, _ => []
  | n + 1, x => (x / 65536) % 256 :: noise n ((1103515245 * x + 12345) % 2147483648)

/-- A file system with two small sound files under `saves`, a sound file
`saves/world.sav` of 8192 bytes that do not compress, an earlier archive
`saves/prev.zip`, one file whose reading breaks off after two bytes, one file
whose `Stat` fails, one destination that cannot be created, and two
destinations on a full disk.  The archive writer keeps up to 4096 bytes in its
buffer: at `full/small.zip` the archive of one small file stays there until
`Close` (points 0 and 1 pass, the flush of `Close` fails); at `full/big.zip`
the header of the first file stays there (point 0 passes) and the copy of
`saves/world.sav` overflows it (point 1 fails).  Two paths name the same file
when they are equal. -/
def sampleSys : FileSys where
  createErr := fun p => if p = "locked/x.zip" then some 5 else none
  lookup := fun p =>
    if p = "saves/a.sav" then .ok { stat := .ok (sampleInfo "a.sav" 3), bytes := [1, 2, 3], readErr := none }
    else if p = "saves/deep/b.sav" then .ok { stat := .ok (sampleInfo "b.sav" 1), bytes := [9], readErr := none }
    else if p = "saves/world.sav" then .ok { stat := .ok (sampleInfo "world.sav" 8192), bytes := noise 8192 1, readErr := none }
    else if p = "saves/prev.zip" then .ok { stat := .ok (sampleInfo "prev.zip" 2), bytes := [80, 75], readErr := none }
    else if p = "saves/torn.sav" then .ok { stat := .ok (sampleInfo "torn.sav" 4), bytes := [7, 8], readErr := some 23 }
    else if p = "saves/gone.sav" then .ok { stat := .error 6, bytes := [], readErr := none }
    else .error 2
  sameFile := fun p q => decide (p = q)
  created := fun p => sampleInfo p 0
  writeErr := fun p k =>
    if p = "full/small.zip" then (if k < 2 then none else some 112)
    else if p = "full/big.zip" then (if k = 0 then none else some 112)
    else none

/-- The image name of the game as UTF-16 code units, NUL-terminated. -/
def gameExe : List Nat := procName.data.map Char.toNat ++ [0, 0, 0]

/-- A process table in which the game runs. -/
def hostRunning : Host :=
  { snapshot := .ok [.ok { size := 568, exeFile := [101, 120, 112, 0] },
                     .ok { size := 568, exeFile := gameExe }] }

/-- A process table in which the game does not run. -/
def hostIdle : Host :=
  { snapshot := .ok [.ok { size := 568, exeFile := [101, 120, 112, 0] },
                     .error ERROR_NO_MORE_FILES] }

/-- A process table whose enumeration breaks with errno 5. -/
def hostBroken : Host :=
  { snapshot := .ok [.ok { size := 568, exeFile := [101, 120, 112, 0] },
                     .error (.errno 5)] }

/-- The listing of `saves`: one file and one directory. -/
def sampleReadDir (dir : String) : Except GoError (List FileInfo) :=
  if dir = "saves" then
    .ok [sampleInfo "a.sav" 3, { name := "deep", size := 0, mode := 493, modTime := 0, isDir := true }]
  else .error (.pathError "open" dir 3)

/-- A host cycle with the given process table. -/
def sampleCycle (host : Host) : CycleEnv :=
  { host := host, readDir := sampleReadDir, now := referenceTime, sys := sampleSys }

/-- A run whose configuration file decodes to `cfg` and in which the game is
idle in every cycle but cycle 1. -/
def sampleWorld (cfg : Config) : World where
  fp := sampleFilepath
  readFile := fun _ => .ok []
  jsonUnmarshal := fun _ => .ok cfg
  mkdirAll := fun _ => none
  getwd := .ok "cwd"
  cycles := fun k => sampleCycle (if k = 1 then hostRunning else hostIdle)

/-! # Theorems -/

/-! ## Naming policy -/

theorem data_stringsReplaceAll (s : String) (old new : Char) :
    (stringsReplaceAll s old new).data = s.data.map (fun c => if c = old then new else c) :=
  rfl

theorem data_rReplace (s : String) :
    (rReplace s).data =
      s.data.map (fun c => if c = ' ' then '_' else if c = ':' then '_' else c) :=
  rfl

/-- The two passes of `genZipFname` together act on the timestamp as the single
pass of the specification does. -/
theorem two_passes_one_char (c : Char) :
    (if (if c = ' ' then '_' else c) = ' ' then '_'
      else if (if c = ' ' then '_' else c) = ':' then '_'
      else (if c = ' ' then '_' else c)) =
    (if c = ' ' ∨ c = ':' then '_' else c) := by
  by_cases h1 : c = ' '
  · subst h1; decide
  · by_cases h2 : c = ':'
    · subst h2; decide
    · simp [h1, h2]

theorem genZipFnameOf_data (ts : String) :
    (genZipFnameOf ts).data =
      "md_save_backup_(".data ++
        ts.data.map (fun c => if c = ' ' ∨ c = ':' then '_' else c) ++ ").zip".data := by
  have hopen : List.map (fun c => if c = ' ' then '_' else if c = ':' then '_' else c)
      "md_save_backup_(".data = "md_save_backup_(".data := by decide
  have hclose : List.map (fun c => if c = ' ' then '_' else if c = ':' then '_' else c)
      ").zip".data = ").zip".data := by decide
  unfold genZipFnameOf
  simp only [data_rReplace, String.data_append, data_stringsReplaceAll, List.map_append,
    List.map_map, hopen, hclose]
  congr 2
  apply List.map_congr_left
  intro c _
  exact two_passes_one_char c

theorem genZipFnameOf_eq_spec (ts : String) : genZipFnameOf ts = specArchiveName ts := by
  apply String.ext
  rw [genZipFnameOf_data]
  simp [specArchiveName, String.data_append]

theorem sanitized_has_neither (l : List Char) (c : Char) (hc : c = ' ' ∨ c = ':') :
    c ∉ "md_save_backup_(".data ++
        l.map (fun c => if c = ' ' ∨ c = ':' then '_' else c) ++ ").zip".data := by
  intro hmem
  rw [List.mem_append, List.mem_append] at hmem
  rcases hmem with (h | h) | h
  · rcases hc with rfl | rfl <;> revert h <;> decide
  · rw [List.mem_map] at h
    obtain ⟨a, _, ha⟩ := h
    by_cases hsp : a = ' ' ∨ a = ':'
    · rw [if_pos hsp] at ha
      rcases hc with rfl | rfl <;> revert ha <;> decide
    · rw [if_neg hsp] at ha
      exact hsp (ha ▸ hc)
  · rcases hc with rfl | rfl <;> revert h <;> decide

/-- C4: whatever timestamp the formatter hands over, and so for every instant,
the name made by `genZipFname` holds no blank and no colon, begins with
`md_save_backup_(` and ends with `).zip`. -/
theorem genZipFname_is_safe_and_framed :
    (∀ ts : String,
      ' ' ∉ (genZipFnameOf ts).data ∧ ':' ∉ (genZipFnameOf ts).data ∧
      "md_save_backup_(".data <+: (genZipFnameOf ts).data ∧
      ").zip".data <:+ (genZipFnameOf ts).data) ∧
    (∀ now : Time,
      ' ' ∉ (genZipFname now).data ∧ ':' ∉ (genZipFname now).data ∧
      "md_save_backup_(".data <+: (genZipFname now).data ∧
      ").zip".data <:+ (genZipFname now).data) := by
  have key : ∀ ts : String,
      ' ' ∉ (genZipFnameOf ts).data ∧ ':' ∉ (genZipFnameOf ts).data ∧
      "md_save_backup_(".data <+: (genZipFnameOf ts).data ∧
      ").zip".data <:+ (genZipFnameOf ts).data := by
    intro ts
    rw [genZipFnameOf_data]
    refine ⟨sanitized_has_neither _ _ (Or.inl rfl), sanitized_has_neither _ _ (Or.inr rfl),
      ?_, ?_⟩
    · rw [List.append_assoc]
      exact List.prefix_append _ _
    · exact List.suffix_append _ _
  exact ⟨key, fun now => key now.format⟩

/-- C9: for every instant the name made by `genZipFname` is `md_save_backup_(`,
then the timestamp of layout "Mon Jan 2 3:04PM 2006" with each blank and each
colon turned into an underscore and nothing else changed, then `).zip`; the
replacer leaves the fixed opening and ending as they are; equal instants give
equal names; Monday 2 January 2006 3:04 PM gives
`md_save_backup_(Mon_Jan_2_3_04PM_2006).zip`. -/
theorem genZipFname_matches_spec :
    (∀ now : Time, genZipFname now = specArchiveName now.format) ∧
    rReplace "md_save_backup_(" = "md_save_backup_(" ∧
    rReplace ").zip" = ").zip" ∧
    (∀ t1 t2 : Time, t1 = t2 → genZipFname t1 = genZipFname t2) ∧
    referenceTime.format = "Mon Jan 2 3:04PM 2006" ∧
    genZipFname referenceTime = "md_save_backup_(Mon_Jan_2_3_04PM_2006).zip" := by
  refine ⟨fun now => genZipFnameOf_eq_spec now.format, by decide, by decide, ?_, by decide,
    by decide⟩
  intro t1 t2 h
  rw [h]

/-! ## Snapshot collector -/

theorem populate_fold (fp : Filepath) (savePath : String) (files : List FileInfo)
    (acc : List String) :
    files.foldl
      (fun filePaths f =>
        if !f.isDir then filePaths ++ [fp.Join savePath f.name] else filePaths) acc =
    acc ++ (files.filter (fun f => !f.isDir)).map (fun f => fp.Join savePath f.name) := by
  induction files generalizing acc with
  | nil => simp
  | cons f rest ih =>
    rw [List.foldl_cons, ih]
    cases hd : f.isDir <;> simp [List.filter_cons, hd]

/-- C5: when the listing succeeds `populatePaths` returns, in listing order, the
join of `savePath` with the name of each entry that is not a directory, none
dropped and none repeated (so the empty sequence, without error, when there is
no such entry); when the listing fails it returns that error and no paths. -/
theorem populatePaths_spec (fp : Filepath)
    (readDir : String → Except GoError (List FileInfo)) (savePath : String) :
    (∀ files, readDir savePath = .ok files →
      populatePaths fp readDir savePath =
        .ok ((files.filter (fun f => !f.isDir)).map (fun f => fp.Join savePath f.name))) ∧
    (∀ files, readDir savePath = .ok files → (∀ f ∈ files, f.isDir = true) →
      populatePaths fp readDir savePath = .ok []) ∧
    (∀ err, readDir savePath = .error err →
      populatePaths fp readDir savePath = .error err) := by
  have main : ∀ files, readDir savePath = .ok files →
      populatePaths fp readDir savePath =
        .ok ((files.filter (fun f => !f.isDir)).map (fun f => fp.Join savePath f.name)) := by
    intro files h
    unfold populatePaths
    rw [h]
    simp only
    rw [populate_fold, List.nil_append]
  refine ⟨main, ?_, ?_⟩
  · intro files h hall
    rw [main files h]
    have : files.filter (fun f => !f.isDir) = [] := by
      rw [List.filter_eq_nil_iff]
      intro f hf
      simp [hall f hf]
    rw [this, List.map_nil]
  · intro err h
    unfold populatePaths
    rw [h]

/-! ## Liveness checker -/

theorem loop_true_iff (rs : List (Except GoError ProcessEntry32)) :
    gameRunningLoop rs = .ok true ↔
      ∃ (pre : List ProcessEntry32) (p : ProcessEntry32) (rest : List (Except GoError ProcessEntry32)), rs = pre.map Except.ok ++ Except.ok p :: rest ∧
        UTF16ToString p.exeFile = procName := by
  induction rs with
  | nil =>
    simp [gameRunningLoop]
  | cons r rest ih =>
    cases r with
    | error err =>
      constructor
      · intro h
        unfold gameRunningLoop at h
        split at h <;> simp at h
      · rintro ⟨pre, p, tl, h, _⟩
        cases pre <;> simp at h
    | ok proc =>
      unfold gameRunningLoop
      by_cases hm : UTF16ToString proc.exeFile = procName
      · simp only [hm, if_true, true_iff]
        exact ⟨[], proc, rest, rfl, hm⟩
      · simp only [hm, if_false]
        rw [ih]
        constructor
        · rintro ⟨pre, p, tl, h, hp⟩
          exact ⟨proc :: pre, p, tl, by simp [h], hp⟩
        · rintro ⟨pre, p, tl, h, hp⟩
          cases pre with
          | nil =>
            simp only [List.map_nil, List.nil_append, List.cons.injEq, Except.ok.injEq] at h
            exact absurd (h.1 ▸ hp) hm
          | cons q pre =>
            simp only [List.map_cons, List.cons_append, List.cons.injEq] at h
            exact ⟨pre, p, tl, h.2, hp⟩

theorem loop_false_iff (rs : List (Except GoError ProcessEntry32)) :
    gameRunningLoop rs = .ok false ↔
      ∃ pre : List ProcessEntry32, (∀ p ∈ pre, UTF16ToString p.exeFile ≠ procName) ∧
        (rs = pre.map Except.ok ∨
          ∃ rest, rs = pre.map Except.ok ++ Except.error ERROR_NO_MORE_FILES :: rest) := by
  induction rs with
  | nil =>
    simp only [gameRunningLoop, true_iff]
    exact ⟨[], by simp, Or.inl rfl⟩
  | cons r rest ih =>
    cases r with
    | error err =>
      unfold gameRunningLoop
      by_cases he : err = ERROR_NO_MORE_FILES
      · simp only [he, if_true, true_iff]
        exact ⟨[], by simp, Or.inr ⟨rest, rfl⟩⟩
      · simp only [he, if_false]
        constructor
        · intro h; cases h
        · rintro ⟨pre, _, h | ⟨tl, h⟩⟩
          · cases pre <;> simp at h
          · cases pre with
            | nil =>
              simp only [List.map_nil, List.nil_append, List.cons.injEq,
                Except.error.injEq] at h
              exact absurd h.1 he
            | cons q pre => simp at h
    | ok proc =>
      unfold gameRunningLoop
      by_cases hm : UTF16ToString proc.exeFile = procName
      · simp only [hm, if_true]
        constructor
        · intro h; cases h
        · rintro ⟨pre, hpre, h | ⟨tl, h⟩⟩
          · cases pre with
            | nil => simp at h
            | cons q pre =>
              simp only [List.map_cons, List.cons.injEq, Except.ok.injEq] at h
              exact absurd (h.1 ▸ hm) (hpre q (List.mem_cons_self _ _))
          · cases pre with
            | nil => simp at h
            | cons q pre =>
              simp only [List.map_cons, List.cons_append, List.cons.injEq,
                Except.ok.injEq] at h
              exact absurd (h.1 ▸ hm) (hpre q (List.mem_cons_self _ _))
      · simp only [hm, if_false]
        rw [ih]
        constructor
        · rintro ⟨pre, hpre, h⟩
          refine ⟨proc :: pre, ?_, ?_⟩
          · intro p hp
            rcases List.mem_cons.mp hp with rfl | hp
            · exact hm
            · exact hpre p hp
          · rcases h with h | ⟨tl, h⟩
            · exact Or.inl (by simp [h])
            · exact Or.inr ⟨tl, by simp [h]⟩
        · rintro ⟨pre, hpre, h⟩
          cases pre with
          | nil =>
            rcases h with h | ⟨tl, h⟩ <;> simp at h
          | cons q pre =>
            refine ⟨pre, fun p hp => hpre p (List.mem_cons_of_mem _ hp), ?_⟩
            rcases h with h | ⟨tl, h⟩
            · simp only [List.map_cons, List.cons.injEq] at h
              exact Or.inl h.2
            · simp only [List.map_cons, List.cons_append, List.cons.injEq] at h
              exact Or.inr ⟨tl, h.2⟩

theorem loop_error_iff (rs : List (Except GoError ProcessEntry32)) (e : GoError) :
    gameRunningLoop rs = .error e ↔
      ∃ (pre : List ProcessEntry32) (rest : List (Except GoError ProcessEntry32)), (∀ p ∈ pre, UTF16ToString p.exeFile ≠ procName) ∧
        rs = pre.map Except.ok ++ Except.error e :: rest ∧ e ≠ ERROR_NO_MORE_FILES := by
  induction rs with
  | nil =>
    simp [gameRunningLoop]
  | cons r rest ih =>
    cases r with
    | error err =>
      unfold gameRunningLoop
      by_cases he : err = ERROR_NO_MORE_FILES
      · simp only [he, if_true]
        constructor
        · intro h; cases h
        · rintro ⟨pre, tl, _, h, hne⟩
          cases pre with
          | nil =>
            simp only [List.map_nil, List.nil_append, List.cons.injEq,
              Except.error.injEq] at h
            exact absurd h.1.symm hne
          | cons q pre => simp at h
      · simp only [he, if_false]
        constructor
        · intro h
          injection h with h
          subst h
          exact ⟨[], rest, by simp, rfl, he⟩
        · rintro ⟨pre, tl, _, h, _⟩
          cases pre with
          | nil =>
            simp only [List.map_nil, List.nil_append, List.cons.injEq,
              Except.error.injEq] at h
            rw [h.1]
          | cons q pre => simp at h
    | ok proc =>
      unfold gameRunningLoop
      by_cases hm : UTF16ToString proc.exeFile = procName
      · simp only [hm, if_true]
        constructor
        · intro h; cases h
        · rintro ⟨pre, tl, hpre, h, _⟩
          cases pre with
          | nil => simp at h
          | cons q pre =>
            simp only [List.map_cons, List.cons_append, List.cons.injEq,
              Except.ok.injEq] at h
            exact absurd (h.1 ▸ hm) (hpre q (List.mem_cons_self _ _))
      · simp only [hm, if_false]
        rw [ih]
        constructor
        · rintro ⟨pre, tl, hpre, h, hne⟩
          refine ⟨proc :: pre, tl, ?_, by simp [h], hne⟩
          intro p hp
          rcases List.mem_cons.mp hp with rfl | hp
          · exact hm
          · exact hpre p hp
        · rintro ⟨pre, tl, hpre, h, hne⟩
          cases pre with
          | nil => simp at h
          | cons q pre =>
            simp only [List.map_cons, List.cons_append, List.cons.injEq] at h
            exact ⟨pre, tl, fun p hp => hpre p (List.mem_cons_of_mem _ hp), h.2, hne⟩

/-- C8: with the process table given as the results of the successive
`Process32Next` calls, `gameRunning` returns (true, nil) exactly when the
snapshot opens and some process reached by the enumeration (every call before
it succeeded) has an image name equal to `Medieval_Dynasty-Win64-Shipping.exe`;
it returns (false, nil) exactly when the snapshot opens and the enumeration
ends cleanly, at the end of the results or at `ERROR_NO_MORE_FILES`, with no
process before that bearing the name; it returns the error `e` exactly when
opening the snapshot fails with `e`, or a call fails with an `e` other than
`ERROR_NO_MORE_FILES` and no process before it bears the name. -/
theorem gameRunning_spec (host : Host) :
    (gameRunning host = .ok true ↔
      ∃ rs, host.snapshot = .ok rs ∧
        ∃ (pre : List ProcessEntry32) (p : ProcessEntry32) (rest : List (Except GoError ProcessEntry32)), rs = pre.map Except.ok ++ Except.ok p :: rest ∧
          UTF16ToString p.exeFile = procName) ∧
    (gameRunning host = .ok false ↔
      ∃ rs, host.snapshot = .ok rs ∧
        ∃ pre : List ProcessEntry32, (∀ p ∈ pre, UTF16ToString p.exeFile ≠ procName) ∧
          (rs = pre.map Except.ok ∨
            ∃ rest, rs = pre.map Except.ok ++ Except.error ERROR_NO_MORE_FILES :: rest)) ∧
    (∀ e, gameRunning host = .error e ↔
      (host.snapshot = .error e ∨
        ∃ rs, host.snapshot = .ok rs ∧
          ∃ (pre : List ProcessEntry32) (rest : List (Except GoError ProcessEntry32)), (∀ p ∈ pre, UTF16ToString p.exeFile ≠ procName) ∧
            rs = pre.map Except.ok ++ Except.error e :: rest ∧ e ≠ ERROR_NO_MORE_FILES)) := by
  unfold gameRunning
  cases hs : host.snapshot with
  | error err =>
    refine ⟨?_, ?_, ?_⟩
    · simp
    · simp
    · intro e
      simp
  | ok rs =>
    refine ⟨?_, ?_, ?_⟩
    · simp only [Except.ok.injEq, exists_eq_left']
      exact loop_true_iff rs
    · simp only [Except.ok.injEq, exists_eq_left']
      exact loop_false_iff rs
    · intro e
      simp only [false_or, Except.ok.injEq, exists_eq_left', reduceCtorEq]
      exact loop_error_iff rs e

/-- Witness of C5: the listing of `saves` holds one file and one directory. -/
theorem populatePaths_spec_witness :
    populatePaths sampleFilepath sampleReadDir "saves" = .ok ["saves/a.sav"] ∧
    populatePaths sampleFilepath sampleReadDir "nowhere" =
      .error (.pathError "open" "nowhere" 3) :=
  ⟨(populatePaths_spec sampleFilepath sampleReadDir "saves").1 _ rfl,
   (populatePaths_spec sampleFilepath sampleReadDir "nowhere").2.2 _ rfl⟩

/-- Witness of C8: a table in which the game runs, one in which the enumeration
ends cleanly without it, one whose enumeration breaks. -/
theorem gameRunning_spec_witness :
    gameRunning hostRunning = .ok true ∧
    gameRunning hostIdle = .ok false ∧
    gameRunning hostBroken = .error (.errno 5) :=
  ⟨(gameRunning_spec hostRunning).1.mpr
      ⟨_, rfl, [{ size := 568, exeFile := [101, 120, 112, 0] }],
        { size := 568, exeFile := gameExe }, [], rfl, by decide⟩,
   (gameRunning_spec hostIdle).2.1.mpr
      ⟨_, rfl, [{ size := 568, exeFile := [101, 120, 112, 0] }], by decide,
        Or.inr ⟨[], rfl⟩⟩,
   ((gameRunning_spec hostBroken).2.2 (.errno 5)).mpr
      (Or.inr ⟨_, rfl, [{ size := 568, exeFile := [101, 120, 112, 0] }], [], by decide,
        rfl, by decide⟩)⟩

/-! ## Archiver -/

/-- Every member of a writer, the one being written included. -/
theorem finishLast_dir (w : ZipWriter) : w.finishLast.dir = w.dir ++ w.last.toList := by
  unfold ZipWriter.finishLast
  cases h : w.last <;> simp

theorem finishLast_closed (w : ZipWriter) : w.finishLast.closed = w.closed := by
  unfold ZipWriter.finishLast
  cases h : w.last <;> simp

theorem finishLast_last (w : ZipWriter) : w.finishLast.last = none := by
  unfold ZipWriter.finishLast
  cases h : w.last <;> simp [h]

theorem finishLast_out (w : ZipWriter) : w.finishLast.out = w.out := by
  unfold ZipWriter.finishLast
  cases h : w.last <;> simp

theorem finishLast_writes (w : ZipWriter) : w.finishLast.writes = w.writes := by
  unfold ZipWriter.finishLast
  cases h : w.last <;> simp

theorem finishLast_fault (w : ZipWriter) : w.finishLast.fault = w.fault := by
  unfold ZipWriter.finishLast
  cases h : w.last <;> simp

/-- On a sound writer, handing bytes on succeeds. -/
theorem handOn_of_sound (sys : FileSys) (w : ZipWriter) (hf : w.fault = none)
    (hw : ∀ k, sys.writeErr w.out k = none) :
    w.handOn sys = (none, { w with writes := w.writes + 1 }) := by
  unfold ZipWriter.handOn
  rw [hf, hw]

/-- On a sound writer `Close` leaves a complete archive of all members. -/
theorem close_of_sound (sys : FileSys) (w : ZipWriter) (h : w.sound sys) :
    (w.Close sys).2.fault = none ∧ (w.Close sys).2.dir = w.finishLast.dir := by
  obtain ⟨_, hf, hw⟩ := h
  unfold ZipWriter.Close
  rw [handOn_of_sound sys w.finishLast (by rw [finishLast_fault, hf])
    (by rw [finishLast_out]; exact hw)]
  exact ⟨by simp [finishLast_fault, hf], rfl⟩

theorem readAll_eq_some (sys : FileSys) (p : String) (bs : Bytes)
    (h : sys.readAll p = some bs) :
    ∃ d info, sys.lookup p = .ok d ∧ d.stat = .ok info ∧ d.readErr = none ∧ d.bytes = bs := by
  revert h
  unfold FileSys.readAll
  cases hl : sys.lookup p with
  | error c => simp
  | ok d =>
    cases hst : d.stat <;> cases hre : d.readErr <;> simp [hst, hre]

theorem readAll_eq_none (sys : FileSys) (p : String) (h : sys.readAll p = none) :
    (∃ c, sys.lookup p = .error c) ∨
    (∃ d c, sys.lookup p = .ok d ∧ d.stat = .error c) ∨
    (∃ d info c, sys.lookup p = .ok d ∧ d.stat = .ok info ∧ d.readErr = some c) := by
  revert h
  unfold FileSys.readAll
  cases hl : sys.lookup p with
  | error c => simp
  | ok d =>
    cases hst : d.stat <;> cases hre : d.readErr <;> simp [hst, hre]

/-- What `addFileToZip` does on a sound writer with a file that opens and whose
`Stat` succeeds. -/
theorem addFileToZip_of_stat (fp : Filepath) (sys : FileSys) (w : ZipWriter) (p : String)
    (d : FileData) (info : FileInfo) (hw : w.sound sys)
    (hl : sys.lookup p = .ok d) (hst : d.stat = .ok info) :
    addFileToZip fp sys w p =
      (d.readErr.map (fun code => GoError.pathError "read" p code),
       { dir := w.finishLast.dir,
         last := some
           { header := { Name := fp.Base p, Method := Deflate,
                         UncompressedSize64 := info.size, Modified := info.modTime,
                         Mode := info.mode },
             data := d.bytes },
         closed := false,
         out := w.out,
         writes := w.writes + 1 + 1,
         fault := none }) := by
  obtain ⟨hc, hf, hwr⟩ := hw
  have h1 := handOn_of_sound sys w.finishLast (by rw [finishLast_fault, hf])
    (by rw [finishLast_out]; exact hwr)
  simp only [addFileToZip, osOpen, hl, File.Stat, hst, zipFileInfoHeader,
    ZipWriter.CreateHeader, hc, h1, ioCopy, Bool.false_eq_true, if_false]
  rw [handOn_of_sound sys _ (by simp [finishLast_fault, hf])
    (by simpa [finishLast_out] using hwr)]
  cases hre : d.readErr <;>
    simp [ZipWriter.write, finishLast_closed, finishLast_out, finishLast_writes,
      finishLast_fault, hc, hf]

/-- A file that reads to its end becomes one member, named by its base name and
holding its bytes. -/
theorem addFileToZip_readable (fp : Filepath) (sys : FileSys) (w : ZipWriter) (p : String)
    (bs : Bytes) (hw : w.sound sys) (h : sys.readAll p = some bs) :
    ∃ w2 e, addFileToZip fp sys w p = (none, w2) ∧ w2.sound sys ∧
      w2.finishLast.dir = w.finishLast.dir ++ [e] ∧
      e.header.Name = fp.Base p ∧ e.data = bs := by
  obtain ⟨d, info, hl, hst, hre, hb⟩ := readAll_eq_some sys p bs h
  have hadd := addFileToZip_of_stat fp sys w p d info hw hl hst
  rw [hre] at hadd
  refine ⟨_, ⟨⟨fp.Base p, Deflate, info.size, info.modTime, info.mode⟩, d.bytes⟩, hadd,
    ⟨rfl, rfl, hw.2.2⟩, ?_, rfl, hb⟩
  simp [finishLast_dir]

/-- A file that cannot be opened, stat-ed or read to its end stops
`addFileToZip` with that file's error; the archive gains what the file left
behind. -/
theorem addFileToZip_unreadable (fp : Filepath) (sys : FileSys) (w : ZipWriter) (p : String)
    (hw : w.sound sys) (h : sys.readAll p = none) :
    ∃ err w2 es, addFileToZip fp sys w p = (some err, w2) ∧ w2.sound sys ∧
      sys.failure p = some err ∧
      w2.finishLast.dir = w.finishLast.dir ++ es ∧
      es.map (fun e => (e.header.Name, some e.data)) = sys.leftover fp p := by
  rcases readAll_eq_none sys p h with ⟨c, hl⟩ | ⟨d, c, hl, hst⟩ | ⟨d, info, c, hl, hst, hre⟩
  · refine ⟨.pathError "open" p c, w, [], ?_, hw, ?_, by simp, ?_⟩
    · simp only [addFileToZip, osOpen, hl]
    · simp only [FileSys.failure, hl]
    · simp only [FileSys.leftover, hl, List.map_nil]
  · refine ⟨.pathError "stat" p c, w, [], ?_, hw, ?_, by simp, ?_⟩
    · simp only [addFileToZip, osOpen, hl, File.Stat, hst]
    · simp only [FileSys.failure, hl, hst]
    · simp only [FileSys.leftover, hl, hst, List.map_nil]
  · have hadd := addFileToZip_of_stat fp sys w p d info hw hl hst
    rw [hre] at hadd
    refine ⟨.pathError "read" p c, _,
      [⟨⟨fp.Base p, Deflate, info.size, info.modTime, info.mode⟩, d.bytes⟩], hadd,
      ⟨rfl, rfl, hw.2.2⟩, ?_, ?_, ?_⟩
    · simp only [FileSys.failure, hl, hst, hre, Option.map_some']
    · simp [finishLast_dir]
    · simp only [FileSys.leftover, hl, hst, List.map_cons, List.map_nil]

theorem makeZipLoop_cons_ok (fp : Filepath) (sys : FileSys) (w w1 : ZipWriter) (p : String)
    (rest : List String) (h : addFileToZip fp sys w p = (none, w1)) :
    makeZipLoop fp sys w (p :: rest) =
      ((makeZipLoop fp sys w1 rest).1, (makeZipLoop fp sys w1 rest).2.1,
        p :: (makeZipLoop fp sys w1 rest).2.2) := by
  simp only [makeZipLoop, h]

theorem makeZipLoop_cons_err (fp : Filepath) (sys : FileSys) (w w1 : ZipWriter) (p : String)
    (rest : List String) (err : GoError) (h : addFileToZip fp sys w p = (some err, w1)) :
    makeZipLoop fp sys w (p :: rest) = (some err, w1, [p]) := by
  simp only [makeZipLoop, h]

theorem makeZipLoop_readable (fp : Filepath) (sys : FileSys) (paths : List String) :
    ∀ w : ZipWriter, w.sound sys → (∀ p ∈ paths, (sys.readAll p).isSome) →
    ∃ w2 es, makeZipLoop fp sys w paths = (none, w2, paths) ∧ w2.sound sys ∧
      w2.finishLast.dir = w.finishLast.dir ++ es ∧
      es.map (fun e => (e.header.Name, some e.data)) =
        paths.map (fun p => (fp.Base p, sys.readAll p)) := by
  induction paths with
  | nil =>
    intro w hw _
    exact ⟨w, [], rfl, hw, by simp, rfl⟩
  | cons p rest ih =>
    intro w hw hall
    obtain ⟨bs, hbs⟩ := Option.isSome_iff_exists.mp (hall p (List.mem_cons_self _ _))
    obtain ⟨w1, e, hadd, hw1, hdir1, hname, hdata⟩ :=
      addFileToZip_readable fp sys w p bs hw hbs
    obtain ⟨w2, es, hloop, hw2, hdir2, hes⟩ :=
      ih w1 hw1 (fun q hq => hall q (List.mem_cons_of_mem _ hq))
    refine ⟨w2, e :: es, ?_, hw2, ?_, ?_⟩
    · rw [makeZipLoop_cons_ok fp sys w w1 p rest hadd, hloop]
    · rw [hdir2, hdir1, List.append_assoc, List.singleton_append]
    · simp only [List.map_cons, hes, hname, hdata, hbs]

theorem makeZipLoop_first_failure (fp : Filepath) (sys : FileSys) (pre : List String)
    (bad : String) (post : List String) (hbad : sys.readAll bad = none) :
    ∀ w : ZipWriter, w.sound sys → (∀ p ∈ pre, (sys.readAll p).isSome) →
    ∃ err w2 es, makeZipLoop fp sys w (pre ++ bad :: post) = (some err, w2, pre ++ [bad]) ∧
      w2.sound sys ∧ sys.failure bad = some err ∧
      w2.finishLast.dir = w.finishLast.dir ++ es ∧
      es.map (fun e => (e.header.Name, some e.data)) =
        pre.map (fun p => (fp.Base p, sys.readAll p)) ++ sys.leftover fp bad := by
  induction pre with
  | nil =>
    intro w hw _
    obtain ⟨err, w2, es, hadd, hw2, hfail, hdir, hes⟩ :=
      addFileToZip_unreadable fp sys w bad hw hbad
    refine ⟨err, w2, es, ?_, hw2, hfail, hdir, by simpa using hes⟩
    rw [List.nil_append, makeZipLoop_cons_err fp sys w w2 bad post err hadd]
    rfl
  | cons p rest ih =>
    intro w hw hall
    obtain ⟨bs, hbs⟩ := Option.isSome_iff_exists.mp (hall p (List.mem_cons_self _ _))
    obtain ⟨w1, e, hadd, hw1, hdir1, hname, hdata⟩ :=
      addFileToZip_readable fp sys w p bs hw hbs
    obtain ⟨err, w2, es, hloop, hw2, hfail, hdir2, hes⟩ :=
      ih w1 hw1 (fun q hq => hall q (List.mem_cons_of_mem _ hq))
    refine ⟨err, w2, e :: es, ?_, hw2, hfail, ?_, ?_⟩
    · rw [List.cons_append, makeZipLoop_cons_ok fp sys w w1 p _ hadd, hloop]
      rfl
    · rw [hdir2, hdir1, List.append_assoc, List.singleton_append]
    · simp only [List.map_cons, List.cons_append, hes, hname, hdata, hbs]

theorem failure_names_path (sys : FileSys) (p : String) (err : GoError)
    (h : sys.failure p = some err) : ∃ op code, err = .pathError op p code := by
  revert h
  unfold FileSys.failure
  cases hl : sys.lookup p with
  | error c =>
    intro h
    exact ⟨_, _, (Option.some.inj h).symm⟩
  | ok d =>
    cases hst : d.stat with
    | error c =>
      simp only [hst]
      intro h
      exact ⟨_, _, (Option.some.inj h).symm⟩
    | ok info =>
      simp only [hst]
      cases hre : d.readErr with
      | none => intro h; cases h
      | some c =>
        intro h
        exact ⟨_, _, (Option.some.inj h).symm⟩

/-! ### Paths that do not name the destination are untouched by `os.Create` -/

theorem truncate_lookup (sys : FileSys) (out p : String) (h : sys.sameFile out p = false) :
    (sys.truncate out).lookup p = sys.lookup p := by
  simp [FileSys.truncate, h]

theorem truncate_readAll (sys : FileSys) (out p : String) (h : sys.sameFile out p = false) :
    (sys.truncate out).readAll p = sys.readAll p := by
  simp only [FileSys.readAll, truncate_lookup sys out p h]

theorem truncate_failure (sys : FileSys) (out p : String) (h : sys.sameFile out p = false) :
    (sys.truncate out).failure p = sys.failure p := by
  simp only [FileSys.failure, truncate_lookup sys out p h]

theorem truncate_leftover (fp : Filepath) (sys : FileSys) (out p : String)
    (h : sys.sameFile out p = false) :
    (sys.truncate out).leftover fp p = sys.leftover fp p := by
  simp only [FileSys.leftover, truncate_lookup sys out p h]

theorem newWriter_sound (sys : FileSys) (out : String)
    (hwrite : ∀ k, sys.writeErr out k = none) :
    (zipNewWriter out).sound (sys.truncate out) :=
  ⟨rfl, rfl, hwrite⟩

/-- The shape of `makeZip` once `os.Create` has succeeded. -/
theorem makeZip_of_created (fp : Filepath) (sys : FileSys) (filePaths : List String)
    (outPath : String) (hcreate : sys.createErr outPath = none) :
    makeZip fp sys filePaths outPath =
      { err := (makeZipLoop fp (sys.truncate outPath) (zipNewWriter outPath) filePaths).1,
        dest := some
          (if (((makeZipLoop fp (sys.truncate outPath) (zipNewWriter outPath)
                filePaths).2.1).Close (sys.truncate outPath)).2.fault.isNone
           then .archive (((makeZipLoop fp (sys.truncate outPath) (zipNewWriter outPath)
                filePaths).2.1).Close (sys.truncate outPath)).2.dir
           else .broken),
        processed := (makeZipLoop fp (sys.truncate outPath) (zipNewWriter outPath)
          filePaths).2.2 } := by
  simp only [makeZip, osCreate, hcreate]

/-- C1, as stated, fails, in four ways.  With no input at all and a destination
that cannot be created, `makeZip` returns the error of `os.Create` and leaves
no file.  With one readable input and a destination on a full disk, the
archive staying in the writer's buffer until the deferred `Close`, `makeZip`
returns nil and leaves a file that is no archive.  With an input that opens and
reads but whose `Stat` fails, `makeZip` returns the error of `Stat`.  With an
input that is the destination itself (an earlier archive of two bytes),
`os.Create` has emptied it before it is read, and its member is empty. -/
theorem makeZip_readable_inputs_not_enough :
    ((∀ p ∈ ([] : List String), sampleSys.opensAndReads p = true) ∧
      (makeZip sampleFilepath sampleSys [] "locked/x.zip").err =
        some (.pathError "open" "locked/x.zip" 5) ∧
      (makeZip sampleFilepath sampleSys [] "locked/x.zip").dest = none) ∧
    ((∀ p ∈ ["saves/a.sav"], sampleSys.opensAndReads p = true) ∧
      sampleSys.createErr "full/small.zip" = none ∧
      (makeZip sampleFilepath sampleSys ["saves/a.sav"] "full/small.zip").err = none ∧
      (makeZip sampleFilepath sampleSys ["saves/a.sav"] "full/small.zip").dest =
        some .broken) ∧
    ((∀ p ∈ ["saves/gone.sav"], sampleSys.opensAndReads p = true) ∧
      sampleSys.createErr "out/x.zip" = none ∧
      (makeZip sampleFilepath sampleSys ["saves/gone.sav"] "out/x.zip").err =
        some (.pathError "stat" "saves/gone.sav" 6)) ∧
    ((∀ p ∈ ["saves/prev.zip"], sampleSys.opensAndReads p = true) ∧
      sampleSys.readAll "saves/prev.zip" = some [80, 75] ∧
      sampleSys.createErr "saves/prev.zip" = none ∧
      (makeZip sampleFilepath sampleSys ["saves/prev.zip"] "saves/prev.zip").err = none ∧
      (makeZip sampleFilepath sampleSys ["saves/prev.zip"] "saves/prev.zip").dest.bind
        DestFile.listing = some [("prev.zip", [])]) := by
  refine ⟨⟨by simp, by decide, by decide⟩, ⟨by decide, by decide, by decide, by decide⟩,
    ⟨by decide, by decide, by decide⟩, ⟨by decide, by decide, by decide, by decide, by decide⟩⟩

/-- C1, amended: when the destination can be created and no write to it fails,
and every input file can be opened, stat-ed and read to its end and does not
name the destination file, `makeZip` returns no error, has handled every input,
and leaves at the destination a complete archive whose members are, in input
order, one per input path, each named by the base name of its path and holding
the bytes of that file; for the empty input list the archive has no member. -/
theorem makeZip_archives_all (fp : Filepath) (sys : FileSys) (filePaths : List String)
    (outPath : String) (hcreate : sys.createErr outPath = none)
    (hwrite : ∀ k, sys.writeErr outPath k = none)
    (hother : ∀ p ∈ filePaths, sys.sameFile outPath p = false)
    (hread : ∀ p ∈ filePaths, (sys.readAll p).isSome) :
    (makeZip fp sys filePaths outPath).err = none ∧
    (makeZip fp sys filePaths outPath).processed = filePaths ∧
    (∃ es, (makeZip fp sys filePaths outPath).dest = some (.archive es) ∧
      es.length = filePaths.length ∧
      es.map (fun e => (e.header.Name, some e.data)) =
        filePaths.map (fun p => (fp.Base p, sys.readAll p))) ∧
    (filePaths = [] → (makeZip fp sys filePaths outPath).dest = some (.archive [])) := by
  have hread2 : ∀ p ∈ filePaths, ((sys.truncate outPath).readAll p).isSome := by
    intro p hp
    rw [truncate_readAll sys outPath p (hother p hp)]
    exact hread p hp
  obtain ⟨w2, es, hloop, hw2, hdir, hes⟩ :=
    makeZipLoop_readable fp (sys.truncate outPath) filePaths (zipNewWriter outPath)
      (newWriter_sound sys outPath hwrite) hread2
  obtain ⟨hfault, hcdir⟩ := close_of_sound (sys.truncate outPath) w2 hw2
  have hes2 : es.map (fun e => (e.header.Name, some e.data)) =
      filePaths.map (fun p => (fp.Base p, sys.readAll p)) := by
    rw [hes]
    apply List.map_congr_left
    intro p hp
    rw [truncate_readAll sys outPath p (hother p hp)]
  have hmk : makeZip fp sys filePaths outPath =
      { err := none, dest := some (.archive es), processed := filePaths } := by
    rw [makeZip_of_created fp sys filePaths outPath hcreate, hloop]
    simp only [hfault, hcdir, hdir, Option.isNone_none, if_true]
    simp [finishLast_dir, zipNewWriter]
  have hlen : es.length = filePaths.length := by
    have := congrArg List.length hes2
    simpa using this
  rw [hmk]
  refine ⟨rfl, rfl, ⟨es, rfl, hlen, hes2⟩, ?_⟩
  intro hnil
  subst hnil
  have : es = [] := List.length_eq_zero.mp (by simpa using hlen)
  rw [this]

/-- Witness of the amended C1: two sound files, one of them nested. -/
theorem makeZip_archives_all_witness :
    (makeZip sampleFilepath sampleSys ["saves/a.sav", "saves/deep/b.sav"] "out/x.zip").err = none ∧
    (makeZip sampleFilepath sampleSys ["saves/a.sav", "saves/deep/b.sav"] "out/x.zip").processed =
      ["saves/a.sav", "saves/deep/b.sav"] ∧
    (∃ es, (makeZip sampleFilepath sampleSys ["saves/a.sav", "saves/deep/b.sav"] "out/x.zip").dest =
        some (.archive es) ∧
      es.length = ["saves/a.sav", "saves/deep/b.sav"].length ∧
      es.map (fun e => (e.header.Name, some e.data)) =
        ["saves/a.sav", "saves/deep/b.sav"].map
          (fun p => (sampleFilepath.Base p, sampleSys.readAll p))) ∧
    (["saves/a.sav", "saves/deep/b.sav"] = [] →
      (makeZip sampleFilepath sampleSys ["saves/a.sav", "saves/deep/b.sav"] "out/x.zip").dest =
        some (.archive [])) :=
  makeZip_archives_all sampleFilepath sampleSys ["saves/a.sav", "saves/deep/b.sav"] "out/x.zip"
    (by decide) (fun _ => rfl) (by decide) (by decide)

/-- C10, as stated, fails, in three ways.  A file whose reading breaks off
after two bytes has already been given a member, so the archive left behind
holds more than what was written for the inputs before it.  On a full disk the
copy of a first, readable file of 8192 bytes fails to write, and `makeZip`
returns that write error, not the error of the unreadable file after it.  And an input that
cannot be opened before the call, but names the destination, is there to be
opened once `os.Create` has run: `makeZip` returns nil. -/
theorem makeZip_keeps_torn_member :
    (sampleSys.createErr "out/x.zip" = none ∧
      (sampleSys.readAll "saves/a.sav").isSome ∧
      sampleSys.readAll "saves/torn.sav" = none ∧
      (makeZip sampleFilepath sampleSys
          ["saves/a.sav", "saves/torn.sav", "saves/deep/b.sav"] "out/x.zip").dest.bind
        DestFile.listing = some [("a.sav", [1, 2, 3]), ("torn.sav", [7, 8])] ∧
      (makeZip sampleFilepath sampleSys ["saves/a.sav"] "out/x.zip").dest.bind
        DestFile.listing = some [("a.sav", [1, 2, 3])] ∧
      (makeZip sampleFilepath sampleSys
          ["saves/a.sav", "saves/torn.sav", "saves/deep/b.sav"] "out/x.zip").dest ≠
        (makeZip sampleFilepath sampleSys ["saves/a.sav"] "out/x.zip").dest) ∧
    (sampleSys.createErr "full/big.zip" = none ∧
      sampleSys.failure "saves/world.sav" = none ∧
      sampleSys.failure "saves/torn.sav" = some (.pathError "read" "saves/torn.sav" 23) ∧
      (makeZip sampleFilepath sampleSys
          ["saves/world.sav", "saves/torn.sav", "saves/deep/b.sav"] "full/big.zip").err =
        some (.pathError "write" "full/big.zip" 112) ∧
      (makeZip sampleFilepath sampleSys
          ["saves/world.sav", "saves/torn.sav", "saves/deep/b.sav"] "full/big.zip").processed =
        ["saves/world.sav"]) ∧
    (sampleSys.createErr "new/x.zip" = none ∧
      sampleSys.failure "new/x.zip" = some (.pathError "open" "new/x.zip" 2) ∧
      (makeZip sampleFilepath sampleSys ["new/x.zip"] "new/x.zip").err = none) := by
  refine ⟨⟨by decide, by decide, by decide, by decide, by decide, by decide⟩,
    ⟨by decide, by decide, by decide, by decide, by decide⟩,
    ⟨by decide, by decide, by decide⟩⟩

/-- C10, amended: if the destination cannot be created `makeZip` returns the
error of `os.Create`, handles no input and leaves no file.  Otherwise, when no
write to the destination fails and no input up to the failing one names the
destination file: at the first input that cannot be opened, stat-ed or read to
its end, `makeZip` returns that file's error (which names the path), handles no
later input, and leaves at the destination an archive of the inputs before it
followed, when the failure came while copying, by a member holding the bytes
read from the failing file. -/
theorem makeZip_stops_at_first_failure (fp : Filepath) (sys : FileSys) (outPath : String) :
    (∀ (filePaths : List String) (code : Nat), sys.createErr outPath = some code →
      makeZip fp sys filePaths outPath =
        { err := some (.pathError "open" outPath code), dest := none, processed := [] }) ∧
    (∀ (pre : List String) (bad : String) (post : List String),
      sys.createErr outPath = none →
      (∀ k, sys.writeErr outPath k = none) →
      (∀ p ∈ pre ++ [bad], sys.sameFile outPath p = false) →
      (∀ p ∈ pre, (sys.readAll p).isSome) → sys.readAll bad = none →
      (makeZip fp sys (pre ++ bad :: post) outPath).err = sys.failure bad ∧
      (∃ op code, (makeZip fp sys (pre ++ bad :: post) outPath).err =
        some (.pathError op bad code)) ∧
      (makeZip fp sys (pre ++ bad :: post) outPath).processed = pre ++ [bad] ∧
      ∃ es, (makeZip fp sys (pre ++ bad :: post) outPath).dest = some (.archive es) ∧
        es.map (fun e => (e.header.Name, some e.data)) =
          pre.map (fun p => (fp.Base p, sys.readAll p)) ++ sys.leftover fp bad) := by
  constructor
  · intro filePaths code hc
    simp only [makeZip, osCreate, hc]
  · intro pre bad post hc hwrite hother hpre hbad
    have hobad : sys.sameFile outPath bad = false := hother bad (by simp)
    have hopre : ∀ p ∈ pre, sys.sameFile outPath p = false :=
      fun p hp => hother p (List.mem_append_left _ hp)
    have hpre2 : ∀ p ∈ pre, ((sys.truncate outPath).readAll p).isSome := by
      intro p hp
      rw [truncate_readAll sys outPath p (hopre p hp)]
      exact hpre p hp
    have hbad2 : (sys.truncate outPath).readAll bad = none := by
      rw [truncate_readAll sys outPath bad hobad]
      exact hbad
    obtain ⟨err, w2, es, hloop, hw2, hfail, hdir, hes⟩ :=
      makeZipLoop_first_failure fp (sys.truncate outPath) pre bad post hbad2
        (zipNewWriter outPath) (newWriter_sound sys outPath hwrite) hpre2
    obtain ⟨hfault, hcdir⟩ := close_of_sound (sys.truncate outPath) w2 hw2
    rw [truncate_failure sys outPath bad hobad] at hfail
    have hes2 : es.map (fun e => (e.header.Name, some e.data)) =
        pre.map (fun p => (fp.Base p, sys.readAll p)) ++ sys.leftover fp bad := by
      rw [hes, truncate_leftover fp sys outPath bad hobad]
      congr 1
      apply List.map_congr_left
      intro p hp
      rw [truncate_readAll sys outPath p (hopre p hp)]
    have hmk : makeZip fp sys (pre ++ bad :: post) outPath =
        { err := some err, dest := some (.archive es), processed := pre ++ [bad] } := by
      rw [makeZip_of_created fp sys _ outPath hc, hloop]
      simp only [hfault, hcdir, hdir, Option.isNone_none, if_true]
      simp [finishLast_dir, zipNewWriter]
    rw [hmk]
    obtain ⟨op, code, herr⟩ := failure_names_path sys bad err hfail
    exact ⟨hfail.symm, ⟨op, code, by rw [herr]⟩, rfl, es, rfl, hes2⟩

/-- Witness of the amended C10: a destination that cannot be created, and an
input list whose second file breaks off while being read. -/
theorem makeZip_stops_at_first_failure_witness :
    makeZip sampleFilepath sampleSys ["saves/a.sav"] "locked/x.zip" =
      { err := some (.pathError "open" "locked/x.zip" 5), dest := none, processed := [] } ∧
    (makeZip sampleFilepath sampleSys
        (["saves/a.sav"] ++ "saves/torn.sav" :: ["saves/deep/b.sav"]) "out/x.zip").err =
      sampleSys.failure "saves/torn.sav" ∧
    (makeZip sampleFilepath sampleSys
        (["saves/a.sav"] ++ "saves/torn.sav" :: ["saves/deep/b.sav"]) "out/x.zip").processed =
      ["saves/a.sav"] ++ ["saves/torn.sav"] :=
  ⟨(makeZip_stops_at_first_failure sampleFilepath sampleSys "locked/x.zip").1
      ["saves/a.sav"] 5 (by decide),
   ((makeZip_stops_at_first_failure sampleFilepath sampleSys "out/x.zip").2
      ["saves/a.sav"] "saves/torn.sav" ["saves/deep/b.sav"]
      (by decide) (fun _ => rfl) (by decide) (by decide) (by decide)).1,
   ((makeZip_stops_at_first_failure sampleFilepath sampleSys "out/x.zip").2
      ["saves/a.sav"] "saves/torn.sav" ["saves/deep/b.sav"]
      (by decide) (fun _ => rfl) (by decide) (by decide) (by decide)).2.2.1⟩

/-! ## Configuration and scheduler loop -/

theorem parseConfig_of_read (w : World) (cfg : Config) (hread : readConfig w = .ok cfg) :
    parseConfig w =
      if cfg.SavePath = "" then .error (.text "Save path is empty.")
      else if cfg.Interval < 5 ∨ 60 < cfg.Interval then
        .error (.text "Interval must be between 5 and 60.")
      else .ok cfg := by
  unfold parseConfig
  rw [hread]
  by_cases hs : cfg.SavePath = ""
  · simp [hs]
  · by_cases h5 : cfg.Interval < 5
    · have : ¬ (5 ≤ cfg.Interval) := by omega
      simp [hs, h5, this]
    · by_cases h60 : 60 < cfg.Interval
      · have : ¬ (cfg.Interval ≤ 60) := by omega
        simp [hs, h60, this]
      · have h1 : 5 ≤ cfg.Interval := by omega
        have h2 : cfg.Interval ≤ 60 := by omega
        simp [hs, h5, h60, h1, h2]

/-- C3: for a configuration read from config.json, `parseConfig` fails exactly
when `savePath` is empty or `interval` lies outside [5, 60]; and when it fails
`main` panics with that error at once: no `makeDir`, no wait, no `makeZip`,
whatever the number of cycles observed. -/
theorem startup_validation (w : World) (cfg : Config) (fuel : Nat)
    (hread : readConfig w = .ok cfg) :
    ((∃ err, parseConfig w = .error err) ↔
      (cfg.SavePath = "" ∨ cfg.Interval < 5 ∨ 60 < cfg.Interval)) ∧
    (parseConfig w = .ok cfg ↔
      (cfg.SavePath ≠ "" ∧ 5 ≤ cfg.Interval ∧ cfg.Interval ≤ 60)) ∧
    (∀ err, parseConfig w = .error err →
      main w fuel = { events := [.panic err], panicked := some err }) ∧
    ((cfg.SavePath = "" ∨ cfg.Interval < 5 ∨ 60 < cfg.Interval) →
      ∃ err, (main w fuel).panicked = some err ∧ (main w fuel).events = [.panic err] ∧
        ∀ e ∈ (main w fuel).events, e.isCreation = false ∧ e.isWork = false ∧
          ∀ d, e ≠ .sleep d) := by
  have hp := parseConfig_of_read w cfg hread
  have hfail : (∃ err, parseConfig w = .error err) ↔
      (cfg.SavePath = "" ∨ cfg.Interval < 5 ∨ 60 < cfg.Interval) := by
    rw [hp]
    by_cases hs : cfg.SavePath = ""
    · simp [hs]
    · by_cases hi : cfg.Interval < 5 ∨ 60 < cfg.Interval
      · simp [hs, hi]
      · simp [hs, hi]
  have hmain : ∀ err, parseConfig w = .error err →
      main w fuel = { events := [.panic err], panicked := some err } := by
    intro err herr
    simp only [main, herr]
  refine ⟨hfail, ?_, hmain, ?_⟩
  · rw [hp]
    by_cases hs : cfg.SavePath = ""
    · simp [hs]
    · by_cases hi : cfg.Interval < 5 ∨ 60 < cfg.Interval
      · have : ¬ (5 ≤ cfg.Interval ∧ cfg.Interval ≤ 60) := by omega
        simp [hs, hi, this]
      · have : 5 ≤ cfg.Interval ∧ cfg.Interval ≤ 60 := by omega
        simp [hs, hi, this]
  · intro hbad
    obtain ⟨err, herr⟩ := hfail.mpr hbad
    refine ⟨err, ?_, ?_, ?_⟩
    · rw [hmain err herr]
    · rw [hmain err herr]
    · rw [hmain err herr]
      intro e he
      simp only [List.mem_singleton] at he
      subst he
      exact ⟨rfl, rfl, fun d h => by cases h⟩

/-- Witness of C3: interval 61 is rejected before anything is created, and of
4, 5, 60 and 61 exactly 5 and 60 pass. -/
theorem startup_validation_witness :
    (∃ err, (main (sampleWorld ⟨"saves", "out", 61⟩) 3).panicked = some err ∧
      (main (sampleWorld ⟨"saves", "out", 61⟩) 3).events = [.panic err] ∧
      ∀ e ∈ (main (sampleWorld ⟨"saves", "out", 61⟩) 3).events,
        e.isCreation = false ∧ e.isWork = false ∧ ∀ d, e ≠ .sleep d) ∧
    parseConfig (sampleWorld ⟨"saves", "out", 4⟩) =
      .error (.text "Interval must be between 5 and 60.") ∧
    parseConfig (sampleWorld ⟨"saves", "out", 5⟩) = .ok ⟨"saves", "out", 5⟩ ∧
    parseConfig (sampleWorld ⟨"saves", "out", 60⟩) = .ok ⟨"saves", "out", 60⟩ ∧
    parseConfig (sampleWorld ⟨"saves", "out", 61⟩) =
      .error (.text "Interval must be between 5 and 60.") ∧
    parseConfig (sampleWorld ⟨"", "out", 10⟩) = .error (.text "Save path is empty.") :=
  ⟨(startup_validation (sampleWorld ⟨"saves", "out", 61⟩) ⟨"saves", "out", 61⟩ 3 rfl).2.2.2
      (by decide),
   rfl, rfl, rfl, rfl, rfl⟩

/-! ### The four ways through one cycle -/

theorem cycle_of_error (fp : Filepath) (waitTime : Int) (savePath outPath : String)
    (env : CycleEnv) (err : GoError) (h : gameRunning env.host = .error err) :
    cycle fp waitTime savePath outPath env =
      { events := [.sleep waitTime, .gameRunning, .panic err], panicked := some err } := by
  simp [cycle, h]

theorem cycle_of_idle (fp : Filepath) (waitTime : Int) (savePath outPath : String)
    (env : CycleEnv) (h : gameRunning env.host = .ok false) :
    cycle fp waitTime savePath outPath env =
      { events := [.sleep waitTime, .gameRunning, .println skippedNotice],
        panicked := none } := by
  simp [cycle, h]

theorem cycle_of_listing_error (fp : Filepath) (waitTime : Int) (savePath outPath : String)
    (env : CycleEnv) (err : GoError) (h : gameRunning env.host = .ok true)
    (hl : populatePaths fp env.readDir savePath = .error err) :
    cycle fp waitTime savePath outPath env =
      { events := [.sleep waitTime, .gameRunning, .populatePaths savePath, .panic err],
        panicked := some err } := by
  simp [cycle, h, hl]

theorem cycle_of_zip_error (fp : Filepath) (waitTime : Int) (savePath outPath : String)
    (env : CycleEnv) (filePaths : List String) (err : GoError)
    (h : gameRunning env.host = .ok true)
    (hl : populatePaths fp env.readDir savePath = .ok filePaths)
    (hz : (makeZip fp env.sys filePaths (fp.Join outPath (genZipFname env.now))).err =
      some err) :
    cycle fp waitTime savePath outPath env =
      { events := [.sleep waitTime, .gameRunning, .populatePaths savePath,
          .makeZip filePaths (fp.Join outPath (genZipFname env.now))
            (makeZip fp env.sys filePaths (fp.Join outPath (genZipFname env.now))).dest,
          .panic err],
        panicked := some err } := by
  simp [cycle, h, hl, hz]

theorem cycle_of_backup (fp : Filepath) (waitTime : Int) (savePath outPath : String)
    (env : CycleEnv) (filePaths : List String)
    (h : gameRunning env.host = .ok true)
    (hl : populatePaths fp env.readDir savePath = .ok filePaths)
    (hz : (makeZip fp env.sys filePaths (fp.Join outPath (genZipFname env.now))).err = none) :
    cycle fp waitTime savePath outPath env =
      { events := [.sleep waitTime, .gameRunning, .populatePaths savePath,
          .makeZip filePaths (fp.Join outPath (genZipFname env.now))
            (makeZip fp env.sys filePaths (fp.Join outPath (genZipFname env.now))).dest,
          .println (genZipFname env.now)],
        panicked := none } := by
  simp [cycle, h, hl, hz]

/-- Every cycle begins with the wait. -/
theorem cycle_starts_with_sleep (fp : Filepath) (waitTime : Int) (savePath outPath : String)
    (env : CycleEnv) :
    ∃ rest, (cycle fp waitTime savePath outPath env).events = .sleep waitTime :: rest := by
  cases h : gameRunning env.host with
  | error err => exact ⟨_, by rw [cycle_of_error fp waitTime savePath outPath env err h]⟩
  | ok running =>
    cases running with
    | false => exact ⟨_, by rw [cycle_of_idle fp waitTime savePath outPath env h]⟩
    | true =>
      cases hl : populatePaths fp env.readDir savePath with
      | error err =>
        exact ⟨_, by rw [cycle_of_listing_error fp waitTime savePath outPath env err h hl]⟩
      | ok filePaths =>
        cases hz : (makeZip fp env.sys filePaths (fp.Join outPath (genZipFname env.now))).err with
        | some err =>
          exact ⟨_, by rw [cycle_of_zip_error fp waitTime savePath outPath env filePaths err h hl hz]⟩
        | none =>
          exact ⟨_, by rw [cycle_of_backup fp waitTime savePath outPath env filePaths h hl hz]⟩

/-- C2: in a cycle in which `gameRunning` returns (false, nil) the loop waits,
asks `gameRunning`, prints the skipped notice and does nothing else: no
`populatePaths`, no `makeZip`, no panic; the loop then goes on, and the next
thing it does is the next wait. -/
theorem skipped_cycle (fp : Filepath) (waitTime : Int) (savePath outPath : String)
    (cycles : Nat → CycleEnv) (fuel k : Nat)
    (h : gameRunning (cycles k).host = .ok false) :
    cycle fp waitTime savePath outPath (cycles k) =
      { events := [.sleep waitTime, .gameRunning, .println skippedNotice],
        panicked := none } ∧
    (∀ e ∈ (cycle fp waitTime savePath outPath (cycles k)).events,
      e.touchesFiles = false) ∧
    mainLoop fp waitTime savePath outPath cycles (fuel + 1) k =
      { events := [.sleep waitTime, .gameRunning, .println skippedNotice] ++
          (mainLoop fp waitTime savePath outPath cycles fuel (k + 1)).events,
        panicked := (mainLoop fp waitTime savePath outPath cycles fuel (k + 1)).panicked } ∧
    ∃ rest, (mainLoop fp waitTime savePath outPath cycles (fuel + 2) k).events =
      [.sleep waitTime, .gameRunning, .println skippedNotice, .sleep waitTime] ++ rest := by
  have hc := cycle_of_idle fp waitTime savePath outPath (cycles k) h
  have hstep : ∀ n, mainLoop fp waitTime savePath outPath cycles (n + 1) k =
      { events := [.sleep waitTime, .gameRunning, .println skippedNotice] ++
          (mainLoop fp waitTime savePath outPath cycles n (k + 1)).events,
        panicked := (mainLoop fp waitTime savePath outPath cycles n (k + 1)).panicked } := by
    intro n
    simp only [mainLoop, hc]
  have hsleep := cycle_starts_with_sleep fp waitTime savePath outPath
  refine ⟨hc, ?_, hstep fuel, ?_⟩
  · rw [hc]
    intro e he
    simp only [List.mem_cons, List.mem_singleton, List.not_mem_nil, or_false] at he
    rcases he with rfl | rfl | rfl <;> rfl
  · rw [hstep (fuel + 1)]
    obtain ⟨rest, hrest⟩ := hsleep (cycles (k + 1))
    cases hp : (cycle fp waitTime savePath outPath (cycles (k + 1))).panicked with
    | some err =>
      refine ⟨rest, ?_⟩
      simp only [mainLoop, hp, hrest]
      rfl
    | none =>
      refine ⟨rest ++ (mainLoop fp waitTime savePath outPath cycles fuel (k + 1 + 1)).events, ?_⟩
      simp only [mainLoop, hp, hrest]
      rfl

/-- Witness of C2: the game is idle in cycle 0 of the sample run. -/
theorem skipped_cycle_witness :
    cycle sampleFilepath 600000000000 "saves" "out" ((sampleWorld ⟨"saves", "out", 10⟩).cycles 0) =
      { events := [.sleep 600000000000, .gameRunning, .println skippedNotice],
        panicked := none } :=
  (skipped_cycle sampleFilepath 600000000000 "saves" "out"
    (sampleWorld ⟨"saves", "out", 10⟩).cycles 0 0 rfl).1

/-- The events of the loop are the events of its cycles, one after another. -/
theorem mainLoop_events (fp : Filepath) (waitTime : Int) (savePath outPath : String)
    (cycles : Nat → CycleEnv) (fuel : Nat) :
    ∀ k, ∃ n, n ≤ fuel ∧
      (mainLoop fp waitTime savePath outPath cycles fuel k).events =
        ((List.range n).map
          (fun i => (cycle fp waitTime savePath outPath (cycles (k + i))).events)).flatten := by
  induction fuel with
  | zero =>
    intro k
    exact ⟨0, le_refl 0, rfl⟩
  | succ fuel ih =>
    intro k
    cases hp : (cycle fp waitTime savePath outPath (cycles k)).panicked with
    | some err =>
      refine ⟨1, by omega, ?_⟩
      simp [mainLoop, hp, List.range_succ]
    | none =>
      obtain ⟨n, hn, hev⟩ := ih (k + 1)
      refine ⟨n + 1, by omega, ?_⟩
      simp only [mainLoop, hp, hev, List.range_succ_eq_map, List.map_cons, List.map_map,
        List.flatten_cons, Nat.add_zero]
      congr 2
      apply List.map_congr_left
      intro i _
      simp only [Function.comp, Nat.succ_eq_add_one]
      rw [Nat.add_assoc, Nat.add_comm 1 i]

/-- In a run that is some events without work followed by cycles that each begin
with the wait, the wait comes before any work. -/
theorem sleep_before_work (waitTime : Int) (startup : List Event) (cs : List (List Event))
    (hstart : ∀ e ∈ startup, e.isWork = false)
    (hcs : ∀ c ∈ cs, ∃ rest, c = Event.sleep waitTime :: rest)
    (pre : List Event) (e : Event) (post : List Event)
    (hsplit : startup ++ cs.flatten = pre ++ e :: post) (hwork : e.isWork = true) :
    Event.sleep waitTime ∈ pre := by
  cases cs with
  | nil =>
    have hmem : e ∈ startup := by
      have : e ∈ startup ++ ([] : List (List Event)).flatten := by
        rw [hsplit]; simp
      simpa using this
    rw [hstart e hmem] at hwork
    cases hwork
  | cons c cs =>
    obtain ⟨rest, hc⟩ := hcs c (List.mem_cons_self _ _)
    rw [List.flatten_cons, hc, List.cons_append] at hsplit
    rcases List.append_eq_append_iff.mp hsplit with ⟨a, hpre, htail⟩ | ⟨a, hst, htail⟩
    · cases a with
      | nil =>
        simp only [List.nil_append, List.cons.injEq] at htail
        rw [← htail.1] at hwork
        cases hwork
      | cons x a =>
        simp only [List.cons_append, List.cons.injEq] at htail
        rw [hpre, htail.1]
        simp
    · cases a with
      | nil =>
        simp only [List.nil_append, List.cons.injEq] at htail
        rw [htail.1] at hwork
        cases hwork
      | cons x a =>
        simp only [List.cons_append, List.cons.injEq] at htail
        have hmem : e ∈ startup := by
          rw [hst]; simp [htail.1]
        rw [hstart e hmem] at hwork
        cases hwork

theorem waitTime_exact (interval : Int) (h5 : 5 ≤ interval) (h60 : interval ≤ 60) :
    wrapInt64 (wrapInt64 interval * Minute) = interval * Minute := by
  unfold wrapInt64 Minute
  have h1 : (interval + 2 ^ 63) % 2 ^ 64 = interval + 2 ^ 63 :=
    Int.emod_eq_of_lt (by omega) (by omega)
  rw [h1]
  have h2 : (interval + 2 ^ 63 - 2 ^ 63) = interval := by omega
  rw [h2]
  have h3 : (interval * (60 * 1000000000) + 2 ^ 63) % 2 ^ 64 =
      interval * (60 * 1000000000) + 2 ^ 63 :=
    Int.emod_eq_of_lt (by omega) (by omega)
  rw [h3]
  omega

theorem mainFrom_events (w : World) (fuel : Nat) (savePath outPath : String) (interval : Int) :
    ∃ startup n, n ≤ fuel ∧ (∀ e ∈ startup, e.isWork = false) ∧
      (mainFrom w fuel savePath outPath interval).events =
        startup ++ ((List.range n).map
          (fun i => (cycle w.fp (wrapInt64 (wrapInt64 interval * Minute)) savePath outPath
            (w.cycles i)).events)).flatten := by
  unfold mainFrom
  have hinfo : ∀ e ∈ (printInfo w.fp interval outPath).1, e.isWork = false := by
    unfold printInfo
    intro e he
    split at he
    · split at he
      · cases he
      · simp only [List.mem_singleton] at he
        subst he; rfl
    · simp only [List.mem_singleton] at he
      subst he; rfl
  cases hpi : printInfo w.fp interval outPath with
  | mk ev res =>
    rw [hpi] at hinfo
    cases res with
    | some err =>
      refine ⟨ev ++ [.panic err], 0, Nat.zero_le _, ?_, by simp⟩
      intro e he
      rcases List.mem_append.mp he with h | h
      · exact hinfo e h
      · simp only [List.mem_singleton] at h
        subst h; rfl
    | none =>
      obtain ⟨n, hn, hev⟩ :=
        mainLoop_events w.fp (wrapInt64 (wrapInt64 interval * Minute)) savePath outPath
          w.cycles fuel 0
      refine ⟨ev, n, hn, hinfo, ?_⟩
      simp only [hev, Nat.zero_add]

/-- C6: with a valid configuration (interval in [5, 60], non-empty save path)
the wait of the loop is exactly `interval` minutes; every cycle begins with
that wait; and a run of `main` is start-up events that call none of
`gameRunning`, `populatePaths`, `makeZip`, followed by the cycles in order, so
that any such call has the wait before it. -/
theorem wait_comes_first (w : World) (cfg : Config) (fuel : Nat)
    (hread : readConfig w = .ok cfg) (hsave : cfg.SavePath ≠ "")
    (h5 : 5 ≤ cfg.Interval) (h60 : cfg.Interval ≤ 60) :
    wrapInt64 (wrapInt64 cfg.Interval * Minute) = cfg.Interval * (60 * 1000000000) ∧
    (∀ (outPath : String) (env : CycleEnv), ∃ rest,
      (cycle w.fp (cfg.Interval * Minute) cfg.SavePath outPath env).events =
        .sleep (cfg.Interval * Minute) :: rest) ∧
    (∃ startup n outPath, n ≤ fuel ∧ (∀ e ∈ startup, e.isWork = false) ∧
      (main w fuel).events =
        startup ++ ((List.range n).map
          (fun i => (cycle w.fp (cfg.Interval * Minute) cfg.SavePath outPath
            (w.cycles i)).events)).flatten) ∧
    (∀ pre e post, (main w fuel).events = pre ++ e :: post → e.isWork = true →
      Event.sleep (cfg.Interval * Minute) ∈ pre) := by
  have hwt := waitTime_exact cfg.Interval h5 h60
  have hparse : parseConfig w = .ok cfg := by
    rw [parseConfig_of_read w cfg hread]
    have : ¬ (cfg.Interval < 5 ∨ 60 < cfg.Interval) := by omega
    simp [hsave, this]
  have hdecomp : ∃ startup n outPath, n ≤ fuel ∧ (∀ e ∈ startup, e.isWork = false) ∧
      (main w fuel).events =
        startup ++ ((List.range n).map
          (fun i => (cycle w.fp (cfg.Interval * Minute) cfg.SavePath outPath
            (w.cycles i)).events)).flatten := by
    unfold main
    rw [hparse]
    simp only
    by_cases hout : cfg.OutPath = ""
    · simp only [hout, ne_eq, not_true_eq_false, if_false]
      cases hg : w.getwd with
      | error err =>
        refine ⟨[.panic err], 0, "", Nat.zero_le _, ?_, by simp⟩
        intro e he
        simp only [List.mem_singleton] at he
        subst he; rfl
      | ok cwd =>
        obtain ⟨startup, n, hn, hs, hev⟩ := mainFrom_events w fuel cfg.SavePath cwd cfg.Interval
        rw [hwt] at hev
        exact ⟨startup, n, cwd, hn, hs, hev⟩
    · simp only [ne_eq, hout, not_false_eq_true, if_true]
      cases hm : makeDir w cfg.OutPath with
      | some err =>
        refine ⟨[.makeDir cfg.OutPath, .panic err], 0, "", Nat.zero_le _, ?_, by simp⟩
        intro e he
        simp only [List.mem_cons, List.mem_singleton, List.not_mem_nil, or_false] at he
        rcases he with rfl | rfl <;> rfl
      | none =>
        obtain ⟨startup, n, hn, hs, hev⟩ :=
          mainFrom_events w fuel cfg.SavePath cfg.OutPath cfg.Interval
        rw [hwt] at hev
        refine ⟨.makeDir cfg.OutPath :: startup, n, cfg.OutPath, hn, ?_, ?_⟩
        · intro e he
          rcases List.mem_cons.mp he with rfl | he
          · rfl
          · exact hs e he
        · simp only [hev, List.cons_append]
  refine ⟨by rw [hwt]; rfl, fun outPath env => cycle_starts_with_sleep _ _ _ _ _, hdecomp, ?_⟩
  intro pre e post hsplit hwork
  obtain ⟨startup, n, outPath, _, hs, hev⟩ := hdecomp
  rw [hev] at hsplit
  refine sleep_before_work (cfg.Interval * Minute) startup _ hs ?_ pre e post hsplit hwork
  intro c hc
  obtain ⟨i, _, rfl⟩ := List.mem_map.mp hc
  exact cycle_starts_with_sleep _ _ _ _ _

/-- Witness of C6: a run with interval 10, observed for three cycles. -/
theorem wait_comes_first_witness :
    wrapInt64 (wrapInt64 (10 : Int) * Minute) = 10 * (60 * 1000000000) ∧
    (main (sampleWorld ⟨"saves", "", 10⟩) 3).events.take 3 =
      [.printf 10 "cwd", .sleep 600000000000, .gameRunning] ∧
    ∀ pre e post, (main (sampleWorld ⟨"saves", "", 10⟩) 3).events = pre ++ e :: post →
      e.isWork = true → Event.sleep (10 * Minute) ∈ pre :=
  ⟨(wait_comes_first (sampleWorld ⟨"saves", "", 10⟩) ⟨"saves", "", 10⟩ 3 rfl (by decide)
      (by decide) (by decide)).1,
   by decide,
   (wait_comes_first (sampleWorld ⟨"saves", "", 10⟩) ⟨"saves", "", 10⟩ 3 rfl (by decide)
      (by decide) (by decide)).2.2.2⟩

/-- C7: an error from `gameRunning`, `populatePaths` or `makeZip` ends the cycle
at once with a panic carrying that error (no later step of the cycle, no line
printed) and ends the loop with it (no further cycle, however many are
observed); a panic of a cycle has no other cause; and a cycle in which the game
is not running does not panic, the loop going on to the next cycle. -/
theorem errors_end_the_loop (fp : Filepath) (waitTime : Int) (savePath outPath : String)
    (cycles : Nat → CycleEnv) (fuel k : Nat) :
    (∀ err, gameRunning (cycles k).host = .error err →
      cycle fp waitTime savePath outPath (cycles k) =
        { events := [.sleep waitTime, .gameRunning, .panic err], panicked := some err }) ∧
    (∀ err, gameRunning (cycles k).host = .ok true →
      populatePaths fp (cycles k).readDir savePath = .error err →
      cycle fp waitTime savePath outPath (cycles k) =
        { events := [.sleep waitTime, .gameRunning, .populatePaths savePath, .panic err],
          panicked := some err }) ∧
    (∀ err filePaths, gameRunning (cycles k).host = .ok true →
      populatePaths fp (cycles k).readDir savePath = .ok filePaths →
      (makeZip fp (cycles k).sys filePaths
        (fp.Join outPath (genZipFname (cycles k).now))).err = some err →
      cycle fp waitTime savePath outPath (cycles k) =
        { events := [.sleep waitTime, .gameRunning, .populatePaths savePath,
            .makeZip filePaths (fp.Join outPath (genZipFname (cycles k).now))
              (makeZip fp (cycles k).sys filePaths
                (fp.Join outPath (genZipFname (cycles k).now))).dest,
            .panic err],
          panicked := some err }) ∧
    (∀ err, (cycle fp waitTime savePath outPath (cycles k)).panicked = some err →
      mainLoop fp waitTime savePath outPath cycles (fuel + 1) k =
        cycle fp waitTime savePath outPath (cycles k) ∧
      (∀ e ∈ (cycle fp waitTime savePath outPath (cycles k)).events, e.isPrintln = false) ∧
      (cycle fp waitTime savePath outPath (cycles k)).events.getLast? = some (.panic err) ∧
      (gameRunning (cycles k).host = .error err ∨
        (gameRunning (cycles k).host = .ok true ∧
          (populatePaths fp (cycles k).readDir savePath = .error err ∨
            ∃ filePaths, populatePaths fp (cycles k).readDir savePath = .ok filePaths ∧
              (makeZip fp (cycles k).sys filePaths
                (fp.Join outPath (genZipFname (cycles k).now))).err = some err)))) ∧
    (gameRunning (cycles k).host = .ok false →
      (cycle fp waitTime savePath outPath (cycles k)).panicked = none ∧
      (mainLoop fp waitTime savePath outPath cycles (fuel + 1) k).events =
        (cycle fp waitTime savePath outPath (cycles k)).events ++
          (mainLoop fp waitTime savePath outPath cycles fuel (k + 1)).events ∧
      (mainLoop fp waitTime savePath outPath cycles (fuel + 1) k).panicked =
        (mainLoop fp waitTime savePath outPath cycles fuel (k + 1)).panicked) := by
  refine ⟨fun err h => cycle_of_error fp waitTime savePath outPath _ err h,
    fun err h hl => cycle_of_listing_error fp waitTime savePath outPath _ err h hl,
    fun err filePaths h hl hz =>
      cycle_of_zip_error fp waitTime savePath outPath _ filePaths err h hl hz, ?_, ?_⟩
  · intro err hp
    have hloop : mainLoop fp waitTime savePath outPath cycles (fuel + 1) k =
        cycle fp waitTime savePath outPath (cycles k) := by
      simp only [mainLoop, hp]
      rw [← hp]
    refine ⟨hloop, ?_⟩
    cases h : gameRunning (cycles k).host with
    | error e0 =>
      rw [cycle_of_error fp waitTime savePath outPath _ e0 h] at hp ⊢
      simp only [Option.some.injEq] at hp
      subst hp
      refine ⟨?_, rfl, Or.inl rfl⟩
      intro e he
      simp only [List.mem_cons, List.mem_singleton, List.not_mem_nil, or_false] at he
      rcases he with rfl | rfl | rfl <;> rfl
    | ok running =>
      cases running with
      | false =>
        rw [cycle_of_idle fp waitTime savePath outPath _ h] at hp
        cases hp
      | true =>
        cases hl : populatePaths fp (cycles k).readDir savePath with
        | error e0 =>
          rw [cycle_of_listing_error fp waitTime savePath outPath _ e0 h hl] at hp ⊢
          simp only [Option.some.injEq] at hp
          subst hp
          refine ⟨?_, rfl, Or.inr ⟨rfl, Or.inl rfl⟩⟩
          intro e he
          simp only [List.mem_cons, List.mem_singleton, List.not_mem_nil, or_false] at he
          rcases he with rfl | rfl | rfl | rfl <;> rfl
        | ok filePaths =>
          cases hz : (makeZip fp (cycles k).sys filePaths
              (fp.Join outPath (genZipFname (cycles k).now))).err with
          | none =>
            rw [cycle_of_backup fp waitTime savePath outPath _ filePaths h hl hz] at hp
            cases hp
          | some e0 =>
            rw [cycle_of_zip_error fp waitTime savePath outPath _ filePaths e0 h hl hz] at hp ⊢
            simp only [Option.some.injEq] at hp
            subst hp
            refine ⟨?_, rfl, Or.inr ⟨rfl, Or.inr ⟨filePaths, rfl, hz⟩⟩⟩
            intro e he
            simp only [List.mem_cons, List.mem_singleton, List.not_mem_nil, or_false] at he
            rcases he with rfl | rfl | rfl | rfl | rfl <;> rfl
  · intro h
    have hc := cycle_of_idle fp waitTime savePath outPath (cycles k) h
    refine ⟨by rw [hc], ?_, ?_⟩
    · simp only [mainLoop, hc]
    · simp only [mainLoop, hc]

/-- Witness of C7: a process table whose enumeration breaks in cycle 0. -/
theorem errors_end_the_loop_witness :
    cycle sampleFilepath 600000000000 "saves" "out" (sampleCycle hostBroken) =
      { events := [.sleep 600000000000, .gameRunning, .panic (.errno 5)],
        panicked := some (.errno 5) } ∧
    mainLoop sampleFilepath 600000000000 "saves" "out" (fun _ => sampleCycle hostBroken) 5 0 =
      cycle sampleFilepath 600000000000 "saves" "out" (sampleCycle hostBroken) :=
  ⟨(errors_end_the_loop sampleFilepath 600000000000 "saves" "out"
      (fun _ => sampleCycle hostBroken) 4 0).1 (.errno 5) rfl,
   ((errors_end_the_loop sampleFilepath 600000000000 "saves" "out"
      (fun _ => sampleCycle hostBroken) 4 0).2.2.2.1 (.errno 5) rfl).1⟩

end MDBackup
